import Mathlib

/-!
Verification development for the senseAble core rewrite pipeline.

The Python sources under `src/core` are shallowly embedded: Python floats
become exact rationals (`ℚ`), Python dicts become insertion-ordered
association lists, fallible operations return `Except`, and in-place
mutation of objects becomes explicit state passing.  Each embedded
definition mirrors one Python function and is named after it.

The rational-number operations are restored to their default reducibility
so that concrete runs of the embedded code can be settled by `decide`.
-/

attribute [local semireducible] Rat.add Rat.mul Rat.sub Rat.inv Rat.ofScientific

/-- ASCII whitespace, the class Python's `\s` and `str.split` use on the
texts in scope. -/
def isSpaceP (c : Char) : Bool :=
  c = ' ' ∨ c = '\t' ∨ c = '\n' ∨ c = '\r' ∨ c = '\x0b' ∨ c = '\x0c'

/-- ASCII word characters, the class Python's `\w` and `\W` use on the
texts in scope. -/
def isWordCharP (c : Char) : Bool := c.isAlpha ∨ c.isDigit ∨ c = '_'

/-- Lowercase a string (ASCII `str.lower`). -/
def lowerStr (s : String) : String := String.mk (s.data.map Char.toLower)

/-- A Python value as it occurs in feedback mappings, interaction-history
events and profile preference maps: a float/int, a string, or `None`.
(`src/core/memory/saf.py` only ever stores these shapes in feedback and
history dicts.) -/
inductive PyVal where
  | num (q : ℚ)
  | str (s : String)
  | none
deriving DecidableEq, Repr

/-- Python truthiness for a `PyVal` (`0`, `""` and `None` are falsy). -/
def PyVal.truthy : PyVal → Bool
  | .num q => q ≠ 0
  | .str s => s ≠ ""
  | .none => false

/-- Embedding of `str(v)`.  For strings it is the identity and for `None`
it is `"None"`; the exact Python rendering of numbers is irrelevant to the
claims (it is never one of the action keywords), so the Lean rendering of
the rational is used. -/
def PyVal.toStr : PyVal → String
  | .num q => toString q
  | .str s => s
  | .none => "None"

/-- Propositional equality on `Except` values is decidable componentwise
(needed to evaluate embedded fallible operations on concrete inputs). -/
instance {ε α : Type} [DecidableEq ε] [DecidableEq α] : DecidableEq (Except ε α) := fun a b =>
  match a, b with
  | Except.ok x, Except.ok y =>
      if h : x = y then Decidable.isTrue (congrArg _ h)
      else Decidable.isFalse (fun he => h (Except.ok.inj he))
  | Except.error x, Except.error y =>
      if h : x = y then Decidable.isTrue (congrArg _ h)
      else Decidable.isFalse (fun he => h (Except.error.inj he))
  | Except.ok _, Except.error _ => Decidable.isFalse (fun he => Except.noConfusion he)
  | Except.error _, Except.ok _ => Decidable.isFalse (fun he => Except.noConfusion he)

/-- Parse the integer digits of a string, or fail. -/
def parseDigits (cs : List Char) : Option ℕ :=
  if cs = [] then Option.none
  else if cs.all Char.isDigit then
    Option.some (cs.foldl (fun acc c => 10 * acc + (c.toNat - 48)) 0)
  else Option.none

/-- Embedding of Python `float(s)` on strings: an optional sign, integer
digits, and an optional fractional part (surrounding blanks stripped).
Exotic accepted forms (exponents, `inf`, `nan`, underscores) are omitted:
the claims only distinguish numeric strings from non-numeric ones. -/
def parseDecimal (s : String) : Option ℚ :=
  let cs := (s.data.dropWhile Char.isWhitespace).reverse.dropWhile Char.isWhitespace |>.reverse
  let (sign, body) : ℚ × List Char :=
    match cs with
    | '-' :: rest => (-1, rest)
    | '+' :: rest => (1, rest)
    | _ => (1, cs)
  match body.splitOn '.' with
  | [intPart] =>
      match parseDigits intPart with
      | Option.some n => Option.some (sign * n)
      | Option.none => Option.none
  | [intPart, fracPart] =>
      match parseDigits intPart, parseDigits fracPart with
      | Option.some n, Option.some f =>
          Option.some (sign * (n + (f : ℚ) / (10 ^ fracPart.length)))
      | _, _ => Option.none
  | _ => Option.none

/-- Embedding of Python `float(v)`: numbers coerce to themselves, numeric
strings parse, everything else raises (`ValueError`/`TypeError`). -/
def PyVal.toFloat : PyVal → Except String ℚ
  | .num q => Except.ok q
  | .str s =>
      match parseDecimal s with
      | Option.some q => Except.ok q
      | Option.none => Except.error "ValueError"
  | .none => Except.error "TypeError"

/-- De-duplication keeping the FIRST occurrence, like iterating a Python
`Counter`/`set` built by insertion. -/
def pyDedup (l : List String) : List String :=
  (l.foldl (fun (acc : List String) e => if acc.contains e then acc else acc ++ [e]) [])

/-- Insertion-ordered association list standing in for a Python dict. -/
abbrev Dict (α : Type) := List (String × α)

/-- `d[k]` lookup returning the first binding, like a Python dict (which
never holds duplicate keys). -/
def dlookup {α : Type} (d : Dict α) (k : String) : Option α :=
  match d with
  | [] => Option.none
  | (k', v) :: rest => if k' = k then Option.some v else dlookup rest k

/-- `d.get(k, default)`. -/
def dgetD {α : Type} (d : Dict α) (k : String) (default : α) : α :=
  (dlookup d k).getD default

/-- `k in d`. -/
def dmem {α : Type} (d : Dict α) (k : String) : Bool :=
  (dlookup d k).isSome

/-- `d[k] = v`: replace the first binding of `k` in place, else append —
Python dict assignment preserves insertion order exactly this way. -/
def dset {α : Type} (d : Dict α) (k : String) (v : α) : Dict α :=
  match d with
  | [] => [(k, v)]
  | (k', v') :: rest => if k' = k then (k, v) :: rest else (k', v') :: dset rest k v

/-- Embedding of `SensoryAccessibilityFingerprint`
(`src/core/memory/saf.py`): per-modality sensitivities, rewrite-strategy
priors and metaphor familiarities in `data` (numeric-valued, as the data
model prescribes), an open preference map, bounded history of event dicts,
and a version. -/
structure SAF where
  data : Dict ℚ
  preferences : Dict PyVal
  history : List (Dict PyVal)
  version : ℤ
deriving DecidableEq, Repr

/-- The dataclass defaults of `SensoryAccessibilityFingerprint`. -/
def defaultSAF : SAF :=
  { data := [("vision", 0), ("hearing", 0), ("smell", 0), ("taste", 0), ("touch", 0),
             ("rewrite_minimal", 33/100), ("rewrite_gentle", 33/100), ("rewrite_full", 34/100),
             ("local_metaphor_familiarity", 1/2), ("global_metaphor_familiarity", 1/2)]
    preferences := []
    history := []
    version := 1 }

/-- `max(0.0, min(1.0, q))`. -/
def clamp01 (q : ℚ) : ℚ := max 0 (min 1 q)

/-- The five base modalities, in the order the source iterates them. -/
def baseModalities : List String := ["vision", "hearing", "smell", "taste", "touch"]

/-- The first loop of `validate`: clamp each of the five modality
sensitivities to `[0,1]` (inserting 0 for a missing one). -/
def clampModalities (d : Dict ℚ) : Dict ℚ :=
  baseModalities.foldl (fun d m => dset d m (clamp01 (dgetD d m 0))) d

/-- Embedding of `SensoryAccessibilityFingerprint.validate`: clamp the five
modality sensitivities to `[0,1]`, then normalize the three strategy priors
by `max(1e-6, their sum)`. -/
def SAF.validate (f : SAF) : SAF :=
  let d := clampModalities f.data
  let rmin := dgetD d "rewrite_minimal" 0
  let rgen := dgetD d "rewrite_gentle" 0
  let rfull := dgetD d "rewrite_full" 0
  let total := max (1/1000000) (rmin + rgen + rfull)
  let d := dset d "rewrite_minimal" (rmin / total)
  let d := dset d "rewrite_gentle" (rgen / total)
  let d := dset d "rewrite_full" (rfull / total)
  { f with data := d }

/-- Embedding of `SensoryAccessibilityFingerprint.to_dict`: a shallow copy
of the four fields (copying is the identity in the functional model). -/
def SAF.to_dict (f : SAF) : SAF := f

/-- Embedding of `SensoryAccessibilityFingerprint.from_dict` on the image
of `to_dict`.  The source's `payload.get("data") or payload` fallback is
taken only when the serialized `data` mapping is empty, in which case the
whole payload dict (with its non-numeric values) becomes `data`; that
degenerate branch is not representable with numeric-valued `data`, so every
theorem about `from_dict` below assumes `data` is non-empty, staying clear
of it.  The constructed instance is then validated, as in the source. -/
def SAF.from_dict (payload : SAF) : SAF :=
  SAF.validate { data := payload.data
                 preferences := payload.preferences
                 history := payload.history
                 version := payload.version }

/-- Embedding of `record_interaction`: stamp the event with the current
time when absent, append it, and keep only the last 1000 events.  The wall
clock read by `time.time()` is passed in as `now`. -/
def SAF.record_interaction (f : SAF) (event : Dict PyVal) (now : ℚ) : SAF :=
  let e := if dmem event "timestamp" then event else event ++ [("timestamp", PyVal.num now)]
  let h := f.history ++ [e]
  { f with history := if h.length > 1000 then h.drop (h.length - 1000) else h }

/-- The steps of `update_from_feedback` that precede prior re-normalization:
action/magnitude parsing, modality-sensitivity adjustment, strategy-prior
increment, and familiarity copies.  An `error` result models an exception
raised inside the `try` block and carries the partially mutated state that
`self` holds at the raise point, plus the error.  On success it returns the
pre-normalization state together with the feedback event that will be
recorded. -/
def SAF.updatePreNormalize (f : SAF) (feedback : Dict PyVal) (learning_rate : ℚ) :
    Except (SAF × String) (SAF × Dict PyVal) :=
  let action := lowerStr (PyVal.toStr (dgetD feedback "action" (PyVal.str "")))
  let modalityVal := dgetD feedback "modality" PyVal.none
  match PyVal.toFloat (dgetD feedback "magnitude" (PyVal.num 1)) with
  | Except.error e => Except.error (f, e)
  | Except.ok mag0 =>
    let magnitude := mag0 * learning_rate
    let f1 :=
      match modalityVal with
      | PyVal.str m =>
          if m ∈ baseModalities then
            let cur := dgetD f.data m 0
            let cur' :=
              if action = "worsen" ∨ action = "sensitivity_inc" then min 1 (cur + magnitude)
              else if action = "improve" ∨ action = "sensitivity_dec" then max 0 (cur - magnitude)
              else cur
            { f with data := dset f.data m cur' }
          else f
      | _ => f
    let f2 :=
      if action = "accept" then
        { f1 with data := dset f1.data "rewrite_gentle" (dgetD f1.data "rewrite_gentle" 0 + magnitude) }
      else if action = "reject" then
        { f1 with data := dset f1.data "rewrite_full" (dgetD f1.data "rewrite_full" 0 + magnitude) }
      else if action = "edit" then
        { f1 with data := dset f1.data "rewrite_minimal" (dgetD f1.data "rewrite_minimal" 0 + magnitude) }
      else f1
    match (if dmem feedback "local_metaphor_familiarity" then
             (PyVal.toFloat (dgetD feedback "local_metaphor_familiarity" PyVal.none)).map Option.some
           else Except.ok Option.none) with
    | Except.error e => Except.error (f2, e)
    | Except.ok lv =>
      let f3 :=
        match lv with
        | Option.some v => { f2 with data := dset f2.data "local_metaphor_familiarity" (clamp01 v) }
        | Option.none => f2
      match (if dmem feedback "global_metaphor_familiarity" then
               (PyVal.toFloat (dgetD feedback "global_metaphor_familiarity" PyVal.none)).map Option.some
             else Except.ok Option.none) with
      | Except.error e => Except.error (f3, e)
      | Except.ok gv =>
        let f4 :=
          match gv with
          | Option.some v => { f3 with data := dset f3.data "global_metaphor_familiarity" (clamp01 v) }
          | Option.none => f3
        Except.ok (f4, [("type", PyVal.str "feedback"), ("action", PyVal.str action),
                        ("modality", modalityVal), ("magnitude", PyVal.num magnitude)])

/-- The whole `try` block of `update_from_feedback`: the pre-normalization
steps, then `validate()` (prior re-normalization and clamping), then
`record_interaction`. -/
def SAF.updateTry (f : SAF) (feedback : Dict PyVal) (learning_rate now : ℚ) :
    Except (SAF × String) SAF :=
  match SAF.updatePreNormalize f feedback learning_rate with
  | Except.error p => Except.error p
  | Except.ok (g, ev) => Except.ok (SAF.record_interaction (SAF.validate g) ev now)

/-- Embedding of `update_from_feedback` as the caller observes it: the
`except Exception` handler swallows any error raised inside the `try`
block, so the method returns normally and the caller sees whatever state
`self` had reached. -/
def SAF.update_from_feedback (f : SAF) (feedback : Dict PyVal) (learning_rate now : ℚ) : SAF :=
  match SAF.updateTry f feedback learning_rate now with
  | Except.ok s => s
  | Except.error (s, _) => s

/-- Embedding of `update_from_feedback` in exception-transparent form: an
`error` result would mean an exception propagating to the caller. -/
def SAF.update_from_feedbackExc (f : SAF) (feedback : Dict PyVal) (learning_rate now : ℚ) :
    Except String SAF :=
  match SAF.updateTry f feedback learning_rate now with
  | Except.ok s => Except.ok s
  | Except.error (s, _) => Except.ok s

/-- The sum of the three rewrite-strategy priors of a fingerprint. -/
def priorSum (f : SAF) : ℚ :=
  dgetD f.data "rewrite_minimal" 0 + dgetD f.data "rewrite_gentle" 0 + dgetD f.data "rewrite_full" 0

/-- Stable insertion of `x` after every element `y` with `le y x`.  Folding
this over a list from the left yields exactly the result of Python's stable
`sort`/`sorted` under the total preorder `le`. -/
def pyInsert {α : Type} (le : α → α → Bool) (x : α) : List α → List α
  | [] => [x]
  | y :: ys => if le y x then y :: pyInsert le x ys else x :: y :: ys

/-- Python's stable sort under the total preorder `le`. -/
def pySortBy {α : Type} (le : α → α → Bool) (l : List α) : List α :=
  l.foldl (fun acc x => pyInsert le x acc) []

/-- `p.isPrefixOf l` for char lists. -/
def isPrefixB (p l : List Char) : Bool := List.isPrefixOf p l

/-- Embedding of `haystack.find(needle)` (leftmost occurrence index). -/
def findSub (hay needle : List Char) : Option ℕ :=
  if isPrefixB needle hay then Option.some 0
  else
    match hay with
    | [] => Option.none
    | _ :: t => (findSub t needle).map (· + 1)

/-- Embedding of Python's `needle in haystack` substring test. -/
def containsSub (hay needle : List Char) : Bool := (findSub hay needle).isSome

/-- Single-pass scanner behind `_simple_tokenize`, carrying the current
position and the pending token (start offset and reversed characters). -/
def tokenizeAux : List Char → ℕ → Option (ℕ × List Char) → List (String × ℕ × ℕ)
  | [], _, Option.none => []
  | [], i, Option.some (s, acc) => [(String.mk acc.reverse, s, i)]
  | c :: cs, i, Option.none =>
    if isSpaceP c then tokenizeAux cs (i + 1) Option.none
    else tokenizeAux cs (i + 1) (Option.some (i, [c]))
  | c :: cs, i, Option.some (s, acc) =>
    if isSpaceP c then (String.mk acc.reverse, s, i) :: tokenizeAux cs (i + 1) Option.none
    else tokenizeAux cs (i + 1) (Option.some (s, c :: acc))

/-- Embedding of `_simple_tokenize` (`src/core/detection/sensory_detector.py`):
maximal non-whitespace runs with their character offsets, like
`re.finditer(r"\S+", text)`. -/
def _simple_tokenize (cs : List Char) (i : ℕ) : List (String × ℕ × ℕ) :=
  tokenizeAux cs i Option.none

/-- Embedding of the detector's `_normalize` (identical in effect to
`taxonomy._normalize_token`): strip leading and trailing non-word
characters — `re.sub(r"^\W+|\W+$", "", tok)` — and lowercase. -/
def _normalize (tok : String) : String :=
  String.mk
    (((tok.data.dropWhile (fun c => ¬ isWordCharP c)).reverse.dropWhile
        (fun c => ¬ isWordCharP c)).reverse.map Char.toLower)

/-- Embedding of `_simple_lemmatize`: the small suffix heuristic for
plurals, past tense and gerunds. -/
def _simple_lemmatize (token : String) : String :=
  let t := (token.data.map Char.toLower)
  let out :=
    if "ies".data.isSuffixOf t then t.take (t.length - 3) ++ ['y']
    else if "s".data.isSuffixOf t ∧ ¬ "ss".data.isSuffixOf t then t.take (t.length - 1)
    else if "ed".data.isSuffixOf t then t.take (t.length - 2)
    else if "ing".data.isSuffixOf t then t.take (t.length - 3)
    else t
  String.mk out

/-- One modality block of `SENSORY_TAXONOMY`
(`src/core/detection/taxonomy.py`). -/
structure TaxBlock where
  base_keywords : List String
  verbs : List String
  adjectives : List String
  intensity_markers : List String
  cultural_weight : ℚ
deriving DecidableEq, Repr

/-- The static sensory taxonomy, in source order. -/
def SENSORY_TAXONOMY : List (String × TaxBlock) :=
  [("vision",
    { base_keywords := ["vision", "sight", "eye", "light", "dark", "color", "colour",
                        "bright", "dim", "vivid", "glare", "glow", "shadow", "shine"]
      verbs := ["see", "look", "gaze", "glimpse", "observe", "notice"]
      adjectives := ["visible", "blinding", "dazzling", "pale", "vibrant"]
      intensity_markers := ["faint", "mild", "strong", "intense", "blinding"]
      cultural_weight := 9/10 }),
   ("hearing",
    { base_keywords := ["sound", "noise", "tone", "audio", "voice", "silence", "ring", "buzz",
                        "echo", "whisper", "shout", "scream"]
      verbs := ["hear", "listen", "sound", "ring", "buzz"]
      adjectives := ["loud", "quiet", "deafening", "muted", "resonant"]
      intensity_markers := ["soft", "moderate", "loud", "deafening", "piercing"]
      cultural_weight := 7/10 }),
   ("smell",
    { base_keywords := ["smell", "scent", "odor", "aroma", "fragrance", "reek"]
      verbs := ["smell", "sniff", "sniffle", "inhale"]
      adjectives := ["fragrant", "pungent", "musty", "sweet-smelling"]
      intensity_markers := ["faint", "noticeable", "strong", "overpowering"]
      cultural_weight := 3/5 }),
   ("taste",
    { base_keywords := ["taste", "flavor", "flavour", "sweet", "salty", "bitter", "sour"]
      verbs := ["taste", "savor", "sip", "chew"]
      adjectives := ["sweet", "sour", "bitter", "savory", "spicy"]
      intensity_markers := ["mild", "tangy", "strong", "overpowering"]
      cultural_weight := 1/2 }),
   ("touch",
    { base_keywords := ["touch", "feel", "texture", "soft", "rough", "smooth", "warm", "cold"]
      verbs := ["touch", "feel", "brush", "graze"]
      adjectives := ["soft", "rough", "coarse", "silky", "sticky"]
      intensity_markers := ["light", "gentle", "firm", "forceful"]
      cultural_weight := 4/5 }),
   ("cross_sensory",
    { base_keywords := ["like", "as", "resembles", "seems", "feels", "smells like", "tastes like"]
      verbs := []
      adjectives := ["metaphorical", "figurative", "analogous"]
      intensity_markers := ["slightly", "kind of", "very", "completely"]
      cultural_weight := 13/20 })]

/-- One language's variant rules from `LANGUAGE_VARIANTS`. -/
structure LangVariants where
  diminutives : List String
  common_suffixes : List String
deriving DecidableEq, Repr

/-- The language-variant table, in source order. -/
def LANGUAGE_VARIANTS : Dict LangVariants :=
  [("en", { diminutives := ["-let", "-ling"], common_suffixes := ["-ish", "-y"] }),
   ("es", { diminutives := ["-ito", "-ita"], common_suffixes := ["-oso", "-osa"] }),
   ("fr", { diminutives := ["-ette"], common_suffixes := ["-eux", "-euse"] }),
   ("de", { diminutives := ["-chen", "-lein"], common_suffixes := ["-ig", "-lich"] })]

/-- The cultural-modifier table; `"global"` maps every modality to 1. -/
def CULTURAL_MODIFIERS : Dict (Dict ℚ) :=
  [("us", [("vision", 1), ("hearing", 19/20), ("touch", 9/10), ("smell", 4/5),
           ("taste", 17/20), ("cross_sensory", 9/10)]),
   ("jp", [("vision", 19/20), ("hearing", 9/10), ("touch", 7/10), ("smell", 17/20),
           ("taste", 9/10), ("cross_sensory", 1)]),
   ("mx", [("vision", 9/10), ("hearing", 1), ("touch", 19/20), ("smell", 19/20),
           ("taste", 1), ("cross_sensory", 9/10)]),
   ("global", [("vision", 1), ("hearing", 1), ("smell", 1), ("taste", 1), ("touch", 1),
               ("cross_sensory", 1)])]

/-- Lexicographic `≤` on char lists by code point, Python's string order. -/
def lexLe : List Char → List Char → Bool
  | [], _ => true
  | _ :: _, [] => false
  | a :: as', b :: bs' => if a < b then true else if b < a then false else lexLe as' bs'

/-- Python string `≤` by code points. -/
def strLe (a b : String) : Bool := lexLe a.data b.data

/-- Embedding of `get_all_sensory_keywords`: per modality, the normalized
keywords of the four lexical categories plus diminutive/suffix variants of
the first three adjectives, de-duplicated and sorted
(`sorted(set(keywords))`).  Raises `ValueError` on an unknown language. -/
def get_all_sensory_keywords (language : String) : Except String (List (String × List String)) :=
  match dlookup LANGUAGE_VARIANTS language with
  | Option.none => Except.error "ValueError"
  | Option.some variants =>
      Except.ok (SENSORY_TAXONOMY.map (fun mb =>
        let block := mb.2
        let kws := (block.base_keywords ++ block.verbs ++ block.adjectives ++
                    block.intensity_markers).map _normalize
        let kws := kws ++ (variants.diminutives ++ variants.common_suffixes).flatMap
          (fun suf => (block.adjectives.take 3).map (fun adj => _normalize (adj ++ suf)))
        (mb.1, pySortBy strLe (pyDedup kws))))

/-- Embedding of `get_intensity_level`: bucket an intensity marker, with a
`^\d+(db|dB)$` fallback on the raw token, defaulting to `medium`. -/
def get_intensity_level (token : String) : String × ℚ :=
  let t := _normalize token
  if t ∈ ["faint", "mild", "slightly", "light"] then ("low", 1/5)
  else if t ∈ ["noticeable", "moderate", "kind of", "somewhat"] then ("medium", 1/2)
  else if t ∈ ["strong", "intense", "very", "piercing", "blinding"] then ("high", 4/5)
  else if t ∈ ["overpowering", "deafening", "explosive"] then ("very_high", 1)
  else
    let digits := token.data.takeWhile Char.isDigit
    let rest := token.data.dropWhile Char.isDigit
    if digits ≠ [] ∧ (rest = ['d', 'b'] ∨ rest = ['d', 'B']) then ("very_high", 1)
    else ("medium", 1/2)

/-- Embedding of `get_cultural_emphasis`: `cultural_weight × modifier`,
where the modifier table defaults to the `"global"` row and each row
defaults a missing modality to 1.  Raises `KeyError` on a modality outside
the taxonomy. -/
def get_cultural_emphasis (culture modality : String) : Except String ℚ :=
  match dlookup SENSORY_TAXONOMY modality with
  | Option.none => Except.error "KeyError"
  | Option.some block =>
      let modifiers := (dlookup CULTURAL_MODIFIERS culture).getD
        ((dlookup CULTURAL_MODIFIERS "global").getD [])
      Except.ok (block.cultural_weight * dgetD modifiers modality 1)

/-- The detector's static idiom table, in source order. -/
def IDIOMS : List (String × List (String × String)) :=
  [("as clear as day", [("vision", "as clear as day")]),
   ("a slap in the face", [("touch", "slap in the face")]),
   ("music to my ears", [("hearing", "music to my ears")]),
   ("smells fishy", [("smell", "smells fishy")])]

/-- A detected sensory span, the dict produced by `detect_sensory_spans`.
Inside the detector every span carries integer character offsets (idiom
spans from `str.find`, token spans from the tokenizer), so offsets are
plain naturals here. -/
structure DSpan where
  modality : String
  token : String
  start_char : ℕ
  end_char : ℕ
  start_token : Option ℕ
  end_token : Option ℕ
  confidence : ℚ
  matches_ : List String
  intensity : Option (String × ℚ)
  language : String
  culture : String
  context_tokens : Option (List String)
deriving DecidableEq, Repr

/-- The idiom-matching pass of `detect_sensory_spans` for one idiom entry:
substring search on the lowercased text, confidence
`min(1, 0.75 × cultural emphasis)`. -/
def idiomSpansFor (textLower : List Char) (text language culture : String)
    (idiom : String) (records : List (String × String)) : Except String (List DSpan) :=
  if containsSub textLower idiom.data then
    (records.mapM (fun (mr : String × String) =>
      match findSub textLower idiom.data with
      | Option.some start => do
          let stop := start + idiom.data.length
          let emph ← get_cultural_emphasis culture mr.1
          pure ([{ modality := mr.1
                   token := String.mk ((text.data.drop start).take (stop - start))
                   start_char := start, end_char := stop
                   start_token := Option.none, end_token := Option.none
                   confidence := min 1 (3/4 * emph)
                   matches_ := ["idiom"], intensity := Option.none
                   language := language, culture := culture
                   context_tokens := Option.none }] : List DSpan)
      | Option.none => pure [])).map List.flatten
  else pure []

/-- The token-level pass of `detect_sensory_spans` for token index `i`:
lexical/lemma keyword matches, window intensity scan, cross-sensory bigram
override, and confidence `min(1, 0.5 × emphasis + boost)`. -/
def tokenSpansAt (norms : List String) (keyword_map : List (String × List String))
    (crossKws : List String) (language culture : String) (window : ℕ)
    (i : ℕ) (tok : String × ℕ × ℕ) : Except String (List DSpan) :=
  let norm := norms.getD i ""
  let lemm := _simple_lemmatize norm
  if norm = "" then pure []
  else
    let lexical := keyword_map.filterMap (fun mk =>
      if mk.2.contains norm ∨ mk.2.contains lemm then Option.some mk.1 else Option.none)
    let ctx := (norms.drop (i - window)).take (i + window + 1 - (i - window))
    let scan := ctx.foldl (fun (acc : Option (String × ℚ) × ℚ) c =>
      let ls := get_intensity_level c
      if ls.1 ≠ "medium" then (Option.some ls, max acc.2 (ls.2 * 3/20)) else acc)
      (Option.none, 0)
    let two_tok := if i + 1 < norms.length then norms.getD i "" ++ " " ++ norms.getD (i + 1) "" else ""
    let isCross := crossKws.contains two_tok
    let matched := if isCross then ["cross_sensory"] else lexical
    let reasons := (List.replicate lexical.length "lexical") ++ (if isCross then ["cross_phrase"] else [])
    matched.mapM (fun modality => do
      let emph ← get_cultural_emphasis culture modality
      pure ({ modality := modality
              token := tok.1
              start_char := tok.2.1, end_char := tok.2.2
              start_token := Option.some i, end_token := Option.some i
              confidence := min 1 (1/2 * emph + scan.2)
              matches_ := if reasons = [] then ["heuristic"] else reasons
              intensity := scan.1
              language := language, culture := culture
              context_tokens := Option.some ctx } : DSpan))

/-- The character-overlap test of `_resolve_overlaps`:
`not (e <= es or s >= ee)`. -/
def overlapsB (sp ex : DSpan) : Bool :=
  decide (ex.start_char < sp.end_char) && decide (sp.start_char < ex.end_char)

/-- One iteration of `_resolve_overlaps`' outer loop: against the snapshot
of already-kept spans, remove every overlapping kept span of strictly lower
confidence, and append the new span unless some overlapping kept span had
equal-or-higher confidence. -/
def _resolve_step (result : List DSpan) (sp : DSpan) : List DSpan :=
  let keep := result.filter (fun ex => !(overlapsB sp ex && decide (ex.confidence < sp.confidence)))
  if result.any (fun ex => overlapsB sp ex && !decide (ex.confidence < sp.confidence))
  then keep
  else keep ++ [sp]

/-- The sort key of `_resolve_overlaps`: start offset ascending, then
confidence descending (`key=lambda s: (start, -confidence)`). -/
def resolveLe (a b : DSpan) : Bool :=
  decide (a.start_char < b.start_char) ||
    (decide (a.start_char = b.start_char) && decide (b.confidence ≤ a.confidence))

/-- Embedding of `_resolve_overlaps`. -/
def _resolve_overlaps (spans : List DSpan) : List DSpan :=
  if spans.isEmpty then [] else (pySortBy resolveLe spans).foldl _resolve_step []

/-- Embedding of `detect_sensory_spans`: language guard, tokenization and
normalization, idiom pass, token pass, overlap resolution. -/
def detect_sensory_spans (text language culture : String) (window : ℕ) :
    Except String (List DSpan) :=
  if (dlookup LANGUAGE_VARIANTS language).isNone then Except.error "ValueError"
  else do
    let tokens := _simple_tokenize text.data 0
    let token_norms := tokens.map (fun t => _normalize t.1)
    let keyword_map ← get_all_sensory_keywords language
    let idiomSpans ← (IDIOMS.mapM (fun ir =>
      idiomSpansFor (text.data.map Char.toLower) text language culture ir.1 ir.2)).map List.flatten
    let crossKws ← (get_all_sensory_keywords language).map (fun km => dgetD km "cross_sensory" [])
    let tokSpans ← ((tokens.enum.mapM (fun it =>
      tokenSpansAt token_norms keyword_map crossKws language culture window it.1 it.2)).map
        List.flatten)
    pure (_resolve_overlaps (idiomSpans ++ tokSpans))

/-- Embedding of `STGNode` (`src/core/stg/graph.py`); the `meta` mapping is
never read by weight computation or traversal. -/
structure STGNode where
  id : String
  modality : String
  text : String := ""
  meta : Dict PyVal := []
deriving DecidableEq, Repr

/-- Embedding of `STGEdge`. -/
structure STGEdge where
  source : String
  target : String
  base_cost : ℚ := 1
  transition_reason : Option String := Option.none
  meta : Dict PyVal := []
deriving DecidableEq, Repr

/-- Embedding of `STGEdge.weight`:
`max(0, base_cost × modality_penalty / max(1e-6, cultural_factor))`. -/
def STGEdge.weight (e : STGEdge) (modality_penalty cultural_factor : ℚ) : ℚ :=
  max 0 (e.base_cost * modality_penalty / max (1/1000000) cultural_factor)

/-- Embedding of `SensoryTranslationGraph`: the `_nodes` dict keyed by node
id and the `_edges` adjacency dict keyed by source id. -/
structure STG where
  nodes : Dict STGNode := []
  edges : Dict (List STGEdge) := []
deriving DecidableEq, Repr

/-- A non-empty (truthy) user-profile dict as `dijkstra_paths` and
`compute_transition_penalty` read it; each field default is the
corresponding `.get` default.  `Option.none` at use sites stands for an
absent or empty (falsy) profile. -/
structure UserProfile where
  modality_penalty_factor : Dict ℚ := []
  culture_factor : ℚ := 1
  heuristic_bias : ℚ := 0
deriving DecidableEq, Repr

/-- Embedding of `SensoryTranslationGraph.compute_transition_penalty`:
1.0 plus 0.5 on a modality change, times the profile's per-target-modality
factor when a profile is supplied, divided by `max(1e-6, culture_factor)`
and floored at 0.  Raises `KeyError` when either node is missing. -/
def compute_transition_penalty (g : STG) (source_id target_id : String)
    (user_profile : Option UserProfile) (culture_factor : ℚ) : Except String ℚ :=
  match dlookup g.nodes source_id, dlookup g.nodes target_id with
  | Option.some s, Option.some t =>
      let penalty : ℚ := if s.modality ≠ t.modality then 1 + 1/2 else 1
      let penalty :=
        match user_profile with
        | Option.some up => penalty * dgetD up.modality_penalty_factor t.modality 1
        | Option.none => penalty
      Except.ok (max 0 (penalty / max (1/1000000) culture_factor))
  | _, _ => Except.error "KeyError"

/-- The effective weight computed for each edge relaxed by `dijkstra_paths`
(`src/core/stg/traversal.py`, the neighbor-expansion loop): the culture
factor is read from the profile, `compute_transition_penalty` is called,
and its result is passed to `STGEdge.weight` as the modality penalty. -/
def dijkstraRelaxWeight (g : STG) (node_id : String) (edge : STGEdge)
    (user_profile : Option UserProfile) : Except String ℚ :=
  let culture_factor :=
    match user_profile with
    | Option.some up => up.culture_factor
    | Option.none => 1
  (compute_transition_penalty g node_id edge.target user_profile culture_factor).map
    (fun penalty => edge.weight penalty culture_factor)

/-- The edge-weight formula as the specification states it (§4.4):
`base_cost × modalityPenalty / culturalFactor` floored at 0, where
`modalityPenalty` is 1.0 for a shared modality and 1.5 otherwise, times the
profile's per-target-modality factor (default 1.0) when a profile is
supplied.  Written from the spec's words for comparison with
`dijkstraRelaxWeight`. -/
def claimedEdgeWeight (g : STG) (node_id : String) (edge : STGEdge)
    (user_profile : Option UserProfile) : Except String ℚ :=
  match dlookup g.nodes node_id, dlookup g.nodes edge.target with
  | Option.some s, Option.some t =>
      let culture_factor :=
        match user_profile with
        | Option.some up => up.culture_factor
        | Option.none => 1
      let mp : ℚ :=
        (if s.modality = t.modality then 1 else 3/2) *
          (match user_profile with
           | Option.some up => dgetD up.modality_penalty_factor t.modality 1
           | Option.none => 1)
      Except.ok (max 0 (edge.base_cost * mp / culture_factor))
  | _, _ => Except.error "KeyError"

/-- An indexed document of `DenseRetriever`
(`src/core/culture/retriever.py`); the unused `id`/`meta` fields are
irrelevant to retrieval. -/
structure RagDoc where
  text : String := ""
  culture : String := "global"
deriving DecidableEq, Repr

/-- Embedding of the retriever's `_tokenize`: lowercased whitespace
tokens. -/
def retr_tokenize (text : String) : List String :=
  (_simple_tokenize text.data 0).map (fun t => lowerStr t.1)

/-- Embedding of `_vectorize`: term frequencies normalized by the token
count (`or 1` on an empty text). -/
def _vectorize (tokens : List String) : Dict ℚ :=
  let total : ℚ := if tokens.length = 0 then 1 else tokens.length
  (pyDedup tokens).map (fun t => (t, (tokens.count t : ℚ) / total))

/-- Dot product of sparse term-frequency dicts. -/
def dotTF (a b : Dict ℚ) : ℚ := (a.map (fun kv => kv.2 * dgetD b kv.1 0)).sum

/-- Sum of squares of a sparse term-frequency dict. -/
def normSqTF (a : Dict ℚ) : ℚ := (a.map (fun kv => kv.2 * kv.2)).sum

/-- Embedding of `_cosine` as its square.  All cosine values in the source
are nonnegative (term frequencies are nonnegative), and `x ↦ x²` is
strictly monotone and zero-preserving on nonnegatives, so ordering,
zero-tests and emptiness behavior are preserved exactly while the
irrational square roots are avoided; the `×1.1` cultural boost accordingly
becomes `×1.21` below. -/
def _cosineSq (a b : Dict ℚ) : ℚ :=
  let denomSq := normSqTF a * normSqTF b
  if denomSq = 0 then 0 else dotTF a b * dotTF a b / denomSq

/-- Embedding of `DenseRetriever.retrieve_with_scores`: score every indexed
document (cultural boost when the culture key occurs in the document's
culture string), sort `(sim, i)` pairs descending, truncate to `top_k`, and
return `(text, score)` pairs — zero scores are NOT filtered out here,
unlike in `retrieve`. -/
def retrieve_with_scores (index : List RagDoc) (query : String) (culture : String)
    (top_k : ℕ) : List (String × ℚ) :=
  let qvec := _vectorize (retr_tokenize query)
  let scores := index.enum.map (fun (idoc : ℕ × RagDoc) =>
    let sim := _cosineSq qvec (_vectorize (retr_tokenize idoc.2.text))
    let sim :=
      if culture ≠ "" ∧ containsSub (lowerStr idoc.2.culture).data (lowerStr culture).data
      then sim * (121/100) else sim
    (sim, idoc.1))
  let sorted := pySortBy
    (fun a b => decide (b.1 < a.1) || (decide (b.1 = a.1) && decide (b.2 ≤ a.2))) scores
  (sorted.take top_k).map (fun si =>
    (((index.get? si.2).getD { text := "", culture := "global" }).text, si.1))

/-- Python `str.strip()`. -/
def stripStr (s : String) : String :=
  String.mk ((s.data.dropWhile isSpaceP).reverse.dropWhile isSpaceP).reverse

/-- Case-insensitive de-duplication keeping the first spelling, as at the
end of `_expand_query`. -/
def dedupCaseInsensitive (l : List String) : List String :=
  (l.foldl (fun (acc : List String × List String) e =>
    let ee := lowerStr e
    if acc.2.contains ee then acc else (acc.1 ++ [e], acc.2 ++ [ee])) ([], [])).1

/-- Embedding of `_expand_query` (`src/core/culture/rag.py`): the token,
up to three modality base keywords, two vision-keyword similes, and up to
two language diminutive forms, de-duplicated case-insensitively. -/
def _expand_query (token : String) (modality : Option String) (language : String) :
    List String :=
  let q := stripStr token
  let expansions := [q]
  let expansions := expansions ++
    (match modality with
     | Option.some m =>
         match dlookup SENSORY_TAXONOMY m with
         | Option.some block => block.base_keywords.take 3
         | Option.none => []
     | Option.none => [])
  let visionKws :=
    match dlookup SENSORY_TAXONOMY "vision" with
    | Option.some b => b.base_keywords.take 2
    | Option.none => []
  let expansions := expansions ++ visionKws.map (fun x => q ++ " like a " ++ x)
  let dims := ((dlookup LANGUAGE_VARIANTS language).map (fun v => v.diminutives)).getD []
  let expansions := expansions ++ (dims.take 2).map (fun suf => q ++ suf)
  dedupCaseInsensitive expansions

/-- Number of whitespace words, `len(c.split())`. -/
def wordCount (c : String) : ℕ := (_simple_tokenize c.data 0).length

/-- Embedding of `_cultural_filter`: +0.2 when the culture string occurs in
the candidate, +0.05 for at most three words, sorted descending on the
`(score, text)` pair. -/
def _cultural_filter (candidates : List String) (culture : String) : List String :=
  let out := candidates.map (fun c =>
    ((1 : ℚ) + (if containsSub (lowerStr c).data (lowerStr culture).data then 1/5 else 0)
       + (if wordCount c ≤ 3 then 1/20 else 0), c))
  (pySortBy (fun a b => decide (b.1 < a.1) || (decide (b.1 = a.1) && strLe b.2 a.2)) out).map
    (fun sc => sc.2)

/-- Embedding of `rerank_metaphors` (`src/core/culture/reranker.py`):
every candidate is scored with the fingerprint's local metaphor
familiarity and the `(score, text)` pairs are sorted descending. -/
def rerank_metaphors (candidates : List String) (fingerprint : SAF) : List String :=
  let scored := candidates.map (fun m =>
    (dgetD fingerprint.data "local_metaphor_familiarity" (1/2), m))
  (pySortBy (fun a b => decide (b.1 < a.1) || (decide (b.1 = a.1) && strLe b.2 a.2)) scored).map
    (fun sm => sm.2)

/-- The span fields `retrieve_cultural_metaphors` reads.  `fingerprint` is
the span's `"fingerprint"` entry: when absent, the source passes the `{}`
default, whose missing `.data` attribute makes `rerank_metaphors` raise
`AttributeError`, caught in the `except` — so the filtered texts are used
unchanged; `Option.none` models that path. -/
structure RagSpan where
  token : String
  modality : Option String := Option.none
  language : String := "en"
  fingerprint : Option SAF := Option.none
deriving Repr

/-- The final unique-truncation loop of `retrieve_cultural_metaphors`:
append unseen candidates, stopping once `top_k` results are collected. -/
def take_unique (top_k : ℕ) : List String → List String → List String
  | out, [] => out
  | out, m :: ms =>
    let out' := if out.contains m then out else out ++ [m]
    if top_k ≤ out'.length then out' else take_unique top_k out' ms

/-- Embedding of `retrieve_cultural_metaphors`: query expansion, scored
retrieval per expansion, template fallback when NO candidate was retrieved
at all, descending sort, cultural filter, familiarity rerank of the first
`2×top_k`, and unique truncation to `top_k`. -/
def retrieve_cultural_metaphors (index : List RagDoc) (span : RagSpan) (culture : String)
    (top_k : ℕ) (expand fallback : Bool) : List String :=
  let token := span.token
  let expansions := if expand then _expand_query token span.modality span.language else [token]
  let scored_candidates := expansions.flatMap (fun q =>
    (retrieve_with_scores index q culture top_k).map (fun ts => (ts.2, ts.1)))
  let scored_candidates :=
    if scored_candidates.isEmpty && fallback then
      [((1 : ℚ)/5, token ++ " like a distant memory"),
       ((1 : ℚ)/5, token ++ " that fills the room")]
    else scored_candidates
  let sorted := pySortBy
    (fun a b => decide (b.1 < a.1) || (decide (b.1 = a.1) && strLe b.2 a.2)) scored_candidates
  let filtered_texts := _cultural_filter (sorted.map (fun sc => sc.2)) culture
  let reranked :=
    match span.fingerprint with
    | Option.some f => rerank_metaphors (filtered_texts.take (top_k * 2)) f
    | Option.none => filtered_texts
  take_unique top_k [] reranked

/-- Single-pass scanner behind `wordRuns`, carrying the pending run
reversed. -/
def wordRunsAux : List Char → Option (List Char) → List (List Char)
  | [], Option.none => []
  | [], Option.some acc => [acc.reverse]
  | c :: cs, Option.none =>
    if isWordCharP c then wordRunsAux cs (Option.some [c]) else wordRunsAux cs Option.none
  | c :: cs, Option.some acc =>
    if isWordCharP c then wordRunsAux cs (Option.some (c :: acc))
    else acc.reverse :: wordRunsAux cs Option.none

/-- Maximal ASCII word-character runs of a text, the candidate matches of
the `\b[A-Z][a-zA-Z0-9_]+\b` named-entity regex. -/
def wordRuns (cs : List Char) : List (List Char) := wordRunsAux cs Option.none

/-- The set captured by `re.findall(r"\b[A-Z][a-zA-Z0-9_]+\b", s)`: the
maximal word-character runs that start with an uppercase letter and have at
least two characters. -/
def capsTokens (s : String) : Finset String :=
  ((wordRuns s.data).filterMap (fun r =>
    match r with
    | c :: _ :: _ => if c.isUpper then Option.some (String.mk r) else Option.none
    | _ => Option.none)).toFinset

/-- Embedding of `preserve_named_entities`
(`src/core/generation/constraints.py`; `_preserve_named_entities` in
`rewrite_engine.py` is the same check — an empty capital set is trivially a
subset): every capitalized token of the original must survive into the
rewrite. -/
def preserve_named_entities (original rewritten : String) : Bool :=
  decide (capsTokens original ⊆ capsTokens rewritten)

/-- The token set `{t.strip().lower() for t in a.split() if t.strip()}`. -/
def tokenSet (a : String) : Finset String :=
  ((_simple_tokenize a.data 0).map (fun t => lowerStr t.1)).toFinset

/-- Embedding of the engine's `_semantic_similarity`: plain token Jaccard,
with 1.0 when both token sets are empty. -/
def _semantic_similarity (a b : String) : ℚ :=
  let ta := tokenSet a
  let tb := tokenSet b
  if ta = ∅ ∧ tb = ∅ then 1
  else ((ta ∩ tb).card : ℚ) / ((ta ∪ tb).card : ℚ)

/-- The Jaccard part of the constraints module's
`_default_semantic_similarity` (`len(inter)/max(1, len(uni))`, 0 when
either token set is empty). -/
def jaccardC (a b : String) : ℚ :=
  let ta := tokenSet a
  let tb := tokenSet b
  if ta ≠ ∅ ∧ tb ≠ ∅ then ((ta ∩ tb).card : ℚ) / (max 1 ((ta ∪ tb).card) : ℚ) else 0

/-- Embedding of `_default_semantic_similarity`:
`0.6 × jaccard + 0.4 × SequenceMatcher.ratio`.  The difflib character
sequence ratio is an external library collaborator and is abstracted as the
`seqRatio` parameter, so the theorems below hold for every ratio
function. -/
def _default_semantic_similarity (seqRatio : String → String → ℚ) (a b : String) : ℚ :=
  3/5 * jaccardC a b + 2/5 * seqRatio a b

/-- Embedding of the engine's `validate_rewrite`: named-entity preservation
plus Jaccard similarity at least `threshold` (default 0.4). -/
def validate_rewrite (original rewritten : String) (threshold : ℚ) : Bool :=
  preserve_named_entities original rewritten &&
    decide (threshold ≤ _semantic_similarity original rewritten)

/-- The `alternatives`/`strategy` dict flowing between `generate_rewrites`,
`validate_rewrites` and the pipeline. -/
structure RWDict where
  alternatives : List String
  strategy : String
deriving DecidableEq, Repr

/-- Embedding of `validate_rewrites` (`src/core/generation/constraints.py`):
keep the alternatives that preserve named entities (when requested) and
score at least `threshold` under `sim`; when none survive, the original
text becomes the sole alternative. -/
def validate_rewrites (sim : String → String → ℚ) (original : String) (rewrites : RWDict)
    (threshold : ℚ) (preserve_entities : Bool) : RWDict :=
  let valid := rewrites.alternatives.filter (fun r =>
    (!preserve_entities || preserve_named_entities original r) &&
      decide (threshold ≤ sim original r))
  let valid := if valid.isEmpty then [original] else valid
  { alternatives := valid, strategy := rewrites.strategy }

/-- Embedding of `select_rewrite_strategy`
(`src/core/generation/spectrum.py`): `max` over the dict iterates keys in
insertion order `minimal, gentle, full` and keeps the first key attaining
the maximal prior. -/
def select_rewrite_strategy (fingerprint : SAF) : String :=
  let m := dgetD fingerprint.data "rewrite_minimal" (33/100)
  let g := dgetD fingerprint.data "rewrite_gentle" (33/100)
  let f := dgetD fingerprint.data "rewrite_full" (34/100)
  let mx := max m (max g f)
  if m = mx then "minimal" else if g = mx then "gentle" else "full"

/-- Global literal replacement with a non-empty pattern `p :: ps`:
leftmost, non-overlapping, like `re.sub(re.escape(old), new, text)`.  The
fuel argument (any bound on the text length) only forces structural
recursion; each match consumes at least one character. -/
def subAllNE (p : Char) (ps rep : List Char) : ℕ → List Char → List Char
  | 0, text => text
  | _ + 1, [] => []
  | fuel + 1, c :: cs =>
    if isPrefixB (p :: ps) (c :: cs)
    then rep ++ subAllNE p ps rep fuel ((c :: cs).drop (ps.length + 1))
    else c :: subAllNE p ps rep fuel cs

/-- Global literal replacement as `re.sub(re.escape(old), new, text)`
performs it; an empty pattern matches at every position, including both
ends. -/
def subAll (pat rep text : List Char) : List Char :=
  match pat with
  | [] => rep ++ text.flatMap (fun c => c :: rep)
  | p :: ps => subAllNE p ps rep text.length text

/-- Embedding of `_apply_replacements`
(`src/core/generation/rewrite_engine.py`): fold `re.sub` literal global
replacement over the `(old, new)` pairs.  (`re.sub` expands backslash
escapes in the replacement; the replacements here are plain text.) -/
def _apply_replacements (text : String) (replacements : List (String × String)) : String :=
  String.mk (replacements.foldl (fun out onew => subAll onew.1.data onew.2.data out) text.data)

/-- Specification-side decomposition of a text at every leftmost,
non-overlapping occurrence of the non-empty pattern `p :: ps`: the returned
pieces contain no replaced occurrence, and the text is recovered by
re-joining them with the pattern.  The fuel argument (any bound on the text
length) only forces structural recursion. -/
def splitOnSubNE (p : Char) (ps : List Char) : ℕ → List Char → List (List Char)
  | 0, text => [text]
  | _ + 1, [] => [[]]
  | fuel + 1, c :: cs =>
    if isPrefixB (p :: ps) (c :: cs) then
      [] :: splitOnSubNE p ps fuel ((c :: cs).drop (ps.length + 1))
    else
      match splitOnSubNE p ps fuel cs with
      | [] => [[c]]
      | l :: ls => (c :: l) :: ls

/-- Join pieces back with a separator. -/
def repJoin (sep : List Char) : List (List Char) → List Char
  | [] => []
  | [x] => x
  | x :: y :: rest => x ++ sep ++ repJoin sep (y :: rest)

/-- The span dict fields visible to the rewrite engine; only `token` is
ever read by it — the character offsets are carried to show exactly
that. -/
structure GenSpan where
  token : String
  modality : String := ""
  start_char : ℕ := 0
  end_char : ℕ := 0
deriving DecidableEq, Repr

/-- A candidate bundle as `generate_rewrites` consumes it. -/
structure GenCandidate where
  span : GenSpan
  alternatives : List String
deriving DecidableEq, Repr

/-- The replacement extraction of `generate_rewrites`: `(span token, first
alternative)` for every candidate that has alternatives. -/
def extract_replacements (candidates : List GenCandidate) : List (String × String) :=
  candidates.filterMap (fun c =>
    match c.alternatives with
    | [] => Option.none
    | a :: _ => Option.some (c.span.token, a))

/-- Association-list lookup for the rewrite cache. -/
def alookup {κ α : Type} [DecidableEq κ] (l : List (κ × α)) (k : κ) : Option α :=
  match l with
  | [] => Option.none
  | (k', v) :: rest => if k' = k then Option.some v else alookup rest k

/-- Association-list store for the rewrite cache. -/
def aset {κ α : Type} [DecidableEq κ] (l : List (κ × α)) (k : κ) (v : α) : List (κ × α) :=
  match l with
  | [] => [(k, v)]
  | (k', v') :: rest => if k' = k then (k, v) :: rest else (k', v') :: aset rest k v

/-- Python `≤` on string pairs (lexicographic), used for
`tuple(sorted(replacements))` in `_cache_key`. -/
def pairLe (a b : String × String) : Bool :=
  if a.1 = b.1 then strLe a.2 b.2 else strLe a.1 b.1

/-- A rewrite-cache key: the source renders `(strategy, text, sorted
replacements)` into an f-string; the structured triple is used here. -/
abbrev CacheKey := String × String × List (String × String)

/-- The module-level `_REWRITE_CACHE`, passed explicitly. -/
abbrev RewriteCache := List (CacheKey × List String)

/-- The output dict of `generate_rewrites`; `scores` is absent (empty) on a
cache hit, as in the source. -/
structure GenOut where
  alternatives : List String
  strategy : String
  scores : Dict ℚ := []
deriving DecidableEq, Repr

/-- The body of `generate_rewrites` after replacement extraction: strategy
selection, cache lookup, the minimal/gentle/full construction, validation
through the constraints module at threshold 0.4, similarity scoring,
descending stable sort, and cache store.  Returns the result together with
the updated cache. -/
def generateFromReps (seqRatio : String → String → ℚ) (text : String)
    (reps : List (String × String)) (fingerprint : SAF) (strategy_override : Option String)
    (validate : Bool) (cache : RewriteCache) : GenOut × RewriteCache :=
  let strategy := strategy_override.getD (select_rewrite_strategy fingerprint)
  let key : CacheKey := (strategy, text, pySortBy pairLe reps)
  match alookup cache key with
  | Option.some cached => ({ alternatives := cached, strategy := strategy, scores := [] }, cache)
  | Option.none =>
    let alternatives :=
      if strategy = "minimal" then [text]
      else if strategy = "gentle" then
        let alts := reps.filterMap (fun onew =>
          let alt := _apply_replacements text [onew]
          if !validate || validate_rewrite text alt (2/5) then Option.some alt else Option.none)
        if alts.isEmpty then [text] else alts
      else
        let rewritten := _apply_replacements text reps
        if !validate || validate_rewrite text rewritten (2/5) then [rewritten] else [text]
    let validated := validate_rewrites (_default_semantic_similarity seqRatio) text
      { alternatives := alternatives, strategy := strategy } (2/5) true
    let scored_alts := validated.alternatives.map (fun alt => (alt, _semantic_similarity text alt))
    let sorted := pySortBy (fun a b => decide (b.2 ≤ a.2)) scored_alts
    let final_alts := sorted.map (fun p => p.1)
    ({ alternatives := final_alts, strategy := strategy
       scores := sorted.foldl (fun d p => dset d p.1 p.2) [] },
     aset cache key final_alts)

/-- Embedding of `generate_rewrites`: the engine reads each candidate only
through `(span token, first alternative)`. -/
def generate_rewrites (seqRatio : String → String → ℚ) (text : String)
    (candidates : List GenCandidate) (fingerprint : SAF) (strategy_override : Option String)
    (validate : Bool) (cache : RewriteCache) : GenOut × RewriteCache :=
  generateFromReps seqRatio text (extract_replacements candidates) fingerprint
    strategy_override validate cache

/-- A candidate bundle assembled by the orchestrator
(`src/core/pipeline.py`) for one detected span. -/
structure PipeCandidate (σ δ : Type) where
  span : σ
  difficulty : δ
  metaphors : List String
  alternatives : List String

/-- The six pipeline stages as the orchestrator calls them, each able to
raise.  The orchestrator is polymorphic in the stage implementations: the
claims about it hold whatever the stages do, including every behavior of
the concrete stage functions embedded above. -/
structure PipeStages (σ δ φ : Type) where
  detect : String → String → String → Except String (List σ)
  score : List σ → φ → Except String (List δ)
  retrieve : σ → String → Except String (List String)
  traverse : σ → φ → Except String (List String)
  reason : σ → List String → φ → Except String (List String)
  generate : String → List (PipeCandidate σ δ) → φ → Except String RWDict

/-- The `RewriteResult` dict returned by `run_rewrite_pipeline`. -/
structure RewriteResult where
  original : String
  alternatives : List String
  strategy : String
deriving DecidableEq, Repr

/-- The pipeline steps up to and including `generate_rewrites`: detection,
scoring, the per-span fan-out building candidate bundles, and rewrite
generation.  Errors propagate, as inside the source's `try` block. -/
def pipelineGenerated {σ δ φ : Type} (st : PipeStages σ δ φ)
    (text language culture : String) (fp : φ) : Except String RWDict := do
  let sensory_spans ← st.detect text language culture
  let difficulty_scores ← st.score sensory_spans fp
  let candidates ← (sensory_spans.zip difficulty_scores).mapM (fun sd => do
    let metaphors ← st.retrieve sd.1 culture
    let stg_nodes ← st.traverse sd.1 fp
    let alts ← st.reason sd.1 stg_nodes fp
    pure ({ span := sd.1, difficulty := sd.2, metaphors := metaphors,
            alternatives := alts } : PipeCandidate σ δ))
  st.generate text candidates fp

/-- The whole `try` block of `run_rewrite_pipeline`: generation followed by
`validate_rewrites` at the pipeline threshold 0.6 with the default
similarity function. -/
def pipelineBody {σ δ φ : Type} (st : PipeStages σ δ φ) (seqRatio : String → String → ℚ)
    (text language culture : String) (fp : φ) : Except String RewriteResult := do
  let rewrite_candidates ← pipelineGenerated st text language culture fp
  let validated := validate_rewrites (_default_semantic_similarity seqRatio) text
    rewrite_candidates (3/5) true
  pure { original := text, alternatives := validated.alternatives,
         strategy := validated.strategy }

/-- Embedding of `run_rewrite_pipeline` (`src/core/pipeline.py`): the
`except Exception` handler converts any internal failure into the safe
fallback `{original: text, alternatives: [text], strategy: "minimal"}`. -/
def run_rewrite_pipeline {σ δ φ : Type} (st : PipeStages σ δ φ)
    (seqRatio : String → String → ℚ) (text language culture : String) (fp : φ) :
    RewriteResult :=
  match pipelineBody st seqRatio text language culture fp with
  | Except.ok r => r
  | Except.error _ => { original := text, alternatives := [text], strategy := "minimal" }

/-- Passing pipeline validation (claim C1's "validation"): named-entity
preservation and default similarity at least the pipeline threshold
0.6. -/
def pipelineValidPass (seqRatio : String → String → ℚ) (original r : String) : Prop :=
  preserve_named_entities original r = true ∧
    3/5 ≤ _default_semantic_similarity seqRatio original r

/-- Wrapper for `splitOnSubNE` on a possibly empty pattern (an empty
pattern never splits). -/
def splitOnSub (pat text : List Char) : List (List Char) :=
  match pat with
  | [] => [text]
  | p :: ps => splitOnSubNE p ps text.length text

/-- `user_profile.get("culture_factor", 1.0)` with a falsy profile giving
the default. -/
def profileCultureFactor (up : Option UserProfile) : ℚ :=
  match up with
  | Option.some u => u.culture_factor
  | Option.none => 1

/-- The per-target-modality penalty factor read from the profile (1 when
absent). -/
def profileModalityFactor (up : Option UserProfile) (m : String) : ℚ :=
  match up with
  | Option.some u => dgetD u.modality_penalty_factor m 1
  | Option.none => 1

/-- Non-overlap of two resolved spans, as the spec states it:
`end_char ≤ start_char` one way or the other. -/
def NonOv (a b : DSpan) : Prop :=
  a.end_char ≤ b.start_char ∨ b.end_char ≤ a.start_char

/-- A two-node, one-edge graph exercising the traversal weight. -/
def gC6 : STG :=
  { nodes := [("a", { id := "a", modality := "vision", text := "bright" }),
              ("b", { id := "b", modality := "hearing", text := "ring" })]
    edges := [("a", [{ source := "a", target := "b", base_cost := 1 }])] }

/-- The edge of `gC6`. -/
def eC6 : STGEdge := { source := "a", target := "b", base_cost := 1 }

/-- A profile carrying a caller-supplied cultural factor of 2. -/
def pC6 : UserProfile := { culture_factor := 2 }

/-- A fingerprint whose strategy priors are all 0.5 (sum 1.5): a legal
dataclass state, e.g. deserialized from a stored payload. -/
def fC7 : SAF :=
  { data := [("vision", 0), ("hearing", 0), ("smell", 0), ("taste", 0), ("touch", 0),
             ("rewrite_minimal", 1/2), ("rewrite_gentle", 1/2), ("rewrite_full", 1/2),
             ("local_metaphor_familiarity", 1/2), ("global_metaphor_familiarity", 1/2)]
    preferences := [], history := [], version := 1 }

/-- A one-document index sharing no token with any query expansion of
`spanC8`: every retrieval score is 0. -/
def idxC8 : List RagDoc := [{ text := "zzz", culture := "global" }]

/-- A detection span for the token `glow`. -/
def spanC8 : RagSpan := { token := "glow", modality := Option.some "vision", language := "en" }

/-- A similarity collaborator that scores everything 0 (any fixed function
works for the witnesses: the claims hold for every `seqRatio`). -/
def seqRatio0 : String → String → ℚ := fun _ _ => 0

/-- Stages whose generator emits one alternative that drops the capitalized
token of the original, so every generated alternative fails pipeline
validation. -/
def stagesC1 : PipeStages Unit Unit Unit :=
  { detect := fun _ _ _ => Except.ok []
    score := fun _ _ => Except.ok []
    retrieve := fun _ _ => Except.ok []
    traverse := fun _ _ => Except.ok []
    reason := fun _ _ _ => Except.ok []
    generate := fun _ _ _ => Except.ok { alternatives := ["zzz"], strategy := "full" } }

/-- Stages whose detector raises, driving the orchestrator into its
degraded fallback. -/
def stagesC2 : PipeStages Unit Unit Unit :=
  { detect := fun _ _ _ => Except.error "boom"
    score := fun _ _ => Except.ok []
    retrieve := fun _ _ => Except.ok []
    traverse := fun _ _ => Except.ok []
    reason := fun _ _ _ => Except.ok []
    generate := fun _ _ _ => Except.ok { alternatives := [], strategy := "minimal" } }

/-- A candidate bundle whose span sits at offsets `[2,5)`. -/
def candsC9a : List GenCandidate :=
  [{ span := { token := "dim", modality := "vision", start_char := 2, end_char := 5 }
     alternatives := ["soft"] }]

/-- The same token and alternatives at entirely different offsets. -/
def candsC9b : List GenCandidate :=
  [{ span := { token := "dim", modality := "hearing", start_char := 90, end_char := 120 }
     alternatives := ["soft"] }]

/-- The spans detected in `"dim loud"` (English, global culture, window 3),
used to witness the non-overlap theorem on a concrete run. -/
def spansC5 : List DSpan :=
  [{ modality := "vision", token := "dim", start_char := 0, end_char := 3
     start_token := Option.some 0, end_token := Option.some 0
     confidence := 9/20, matches_ := ["lexical"], intensity := Option.none
     language := "en", culture := "global", context_tokens := Option.some ["dim", "loud"] },
   { modality := "hearing", token := "loud", start_char := 4, end_char := 8
     start_token := Option.some 1, end_token := Option.some 1
     confidence := 7/20, matches_ := ["lexical"], intensity := Option.none
     language := "en", culture := "global", context_tokens := Option.some ["dim", "loud"] }]

/-- Well-formed feedback: a sensitivity increase with a numeric familiarity
update. -/
def fbC4good : Dict PyVal :=
  [("action", PyVal.str "worsen"), ("modality", PyVal.str "vision"),
   ("magnitude", PyVal.num 1), ("local_metaphor_familiarity", PyVal.num (7/10))]

/-- The pre-normalization state `fbC4good` produces on a default
fingerprint at learning rate 0.05. -/
def gC4 : SAF :=
  { data := [("vision", 1/20), ("hearing", 0), ("smell", 0), ("taste", 0), ("touch", 0),
             ("rewrite_minimal", 33/100), ("rewrite_gentle", 33/100), ("rewrite_full", 17/50),
             ("local_metaphor_familiarity", 7/10), ("global_metaphor_familiarity", 1/2)]
    preferences := [], history := [], version := 1 }

/-- The feedback event recorded for `fbC4good`. -/
def evC4 : Dict PyVal :=
  [("type", PyVal.str "feedback"), ("action", PyVal.str "worsen"),
   ("modality", PyVal.str "vision"), ("magnitude", PyVal.num (1/20))]

/-- Malformed feedback: the familiarity value is a non-numeric string, so
`float()` raises after the sensitivity adjustment has been applied. -/
def fbC4bad : Dict PyVal :=
  [("action", PyVal.str "worsen"), ("modality", PyVal.str "vision"),
   ("magnitude", PyVal.num 1), ("local_metaphor_familiarity", PyVal.str "high")]

/-- Feedback whose large negative magnitude drives the prior sum below the
1e-6 normalization floor. -/
def fbC3bad : Dict PyVal :=
  [("action", PyVal.str "accept"), ("magnitude", PyVal.num (-100))]

/-- An `accept` at magnitude 1, used to witness normalization after a
well-formed update. -/
def fbC3good : Dict PyVal := [("action", PyVal.str "accept"), ("magnitude", PyVal.num 1)]

/-- The pre-normalization state `fbC3good` produces on a default
fingerprint at learning rate 0.05. -/
def gC3 : SAF :=
  { data := [("vision", 0), ("hearing", 0), ("smell", 0), ("taste", 0), ("touch", 0),
             ("rewrite_minimal", 33/100), ("rewrite_gentle", 19/50), ("rewrite_full", 17/50),
             ("local_metaphor_familiarity", 1/2), ("global_metaphor_familiarity", 1/2)]
    preferences := [], history := [], version := 1 }

/-- The feedback event recorded for `fbC3good`. -/
def evC3 : Dict PyVal :=
  [("type", PyVal.str "feedback"), ("action", PyVal.str "accept"),
   ("modality", PyVal.none), ("magnitude", PyVal.num (1/20))]

theorem dlookup_dset_self {α : Type} (d : Dict α) (k : String) (v : α) :
    dlookup (dset d k v) k = Option.some v := by
  induction d with
  | nil => simp [dset, dlookup]
  | cons hd tl ih =>
      obtain ⟨k', v'⟩ := hd
      by_cases h : k' = k
      · simp [dset, dlookup, h]
      · simp [dset, dlookup, h, ih]

theorem dlookup_dset_ne {α : Type} (d : Dict α) {k k' : String} {v : α} (h : k' ≠ k) :
    dlookup (dset d k' v) k = dlookup d k := by
  induction d with
  | nil => simp [dset, dlookup, h]
  | cons hd tl ih =>
      obtain ⟨a, b⟩ := hd
      by_cases ha : a = k'
      · subst ha
        simp [dset, dlookup, h]
      · simp [dset, ha, dlookup, ih]

theorem dset_of_lookup_eq {α : Type} {d : Dict α} {k : String} {v : α}
    (h : dlookup d k = Option.some v) : dset d k v = d := by
  induction d with
  | nil => simp [dlookup] at h
  | cons hd tl ih =>
      obtain ⟨a, b⟩ := hd
      by_cases ha : a = k
      · subst ha
        simp [dlookup] at h
        simp [dset, h]
      · simp [dlookup, ha] at h
        simp [dset, ha, ih h]

theorem dlookup_clampModalities (d : Dict ℚ) (k : String) (hk : ¬ k ∈ baseModalities) :
    dlookup (clampModalities d) k = dlookup d k := by
  simp only [baseModalities, List.mem_cons, List.not_mem_nil, or_false] at hk
  push_neg at hk
  obtain ⟨h1, h2, h3, h4, h5⟩ := hk
  simp only [clampModalities, baseModalities, List.foldl_cons, List.foldl_nil]
  rw [dlookup_dset_ne _ (Ne.symm h5), dlookup_dset_ne _ (Ne.symm h4),
      dlookup_dset_ne _ (Ne.symm h3), dlookup_dset_ne _ (Ne.symm h2),
      dlookup_dset_ne _ (Ne.symm h1)]

/-- `validate` scales each prior by `1 / max(1e-6, S)` where `S` is the
prior sum, so the post-validation prior sum is exactly
`S / max(1e-6, S)`. -/
theorem priorSum_validate (f : SAF) :
    priorSum (SAF.validate f) = priorSum f / max (1/1000000) (priorSum f) := by
  unfold SAF.validate priorSum
  dsimp only
  unfold dgetD
  rw [dlookup_dset_ne _ (by decide), dlookup_dset_ne _ (by decide), dlookup_dset_self,
      dlookup_dset_ne _ (by decide), dlookup_dset_self, dlookup_dset_self]
  rw [dlookup_clampModalities _ _ (by decide), dlookup_clampModalities _ _ (by decide),
      dlookup_clampModalities _ _ (by decide)]
  simp only [Option.getD_some]
  ring

set_option maxRecDepth 4000 in
/-- C3, counterexample: a single `accept` with magnitude −100 on a default
fingerprint drives the pre-normalization prior sum to −4, the 1e-6 floor
takes over as denominator, and the resulting priors sum to −4,000,000 —
not 1 within 1e-6 — refuting the claim as stated. -/
theorem C3_counterexample :
    priorSum (SAF.update_from_feedback defaultSAF fbC3bad (1/20) 0) = -4000000 ∧
    ¬ |priorSum (SAF.update_from_feedback defaultSAF fbC3bad (1/20) 0) - 1| ≤ 1/1000000 := by
  have h : priorSum (SAF.update_from_feedback defaultSAF fbC3bad (1/20) 0) = -4000000 := by
    decide
  refine ⟨h, ?_⟩
  rw [h]
  rw [show |(-4000000 : ℚ) - 1| = 4000001 by rw [abs_of_nonpos (by norm_num)]; norm_num]
  norm_num

/-- C3 (amended): after `validate`, the three strategy priors sum to
exactly 1 provided their pre-normalization sum is at least the 1e-6 floor;
after `update_from_feedback`, they sum to exactly 1 provided the update
parses (reaching normalization) and the incremented priors sum to at least
1e-6.  Below the floor the normalization denominator is clamped and the
invariant fails (see the counterexample). -/
theorem C3_amended :
    (∀ f : SAF, 1/1000000 ≤ priorSum f → priorSum (SAF.validate f) = 1)
    ∧ (∀ (f : SAF) (feedback : Dict PyVal) (lr now : ℚ) (g : SAF) (ev : Dict PyVal),
        SAF.updatePreNormalize f feedback lr = Except.ok (g, ev) →
        1/1000000 ≤ priorSum g →
        priorSum (SAF.update_from_feedback f feedback lr now) = 1) := by
  have hval : ∀ f : SAF, 1/1000000 ≤ priorSum f → priorSum (SAF.validate f) = 1 := by
    intro f h
    rw [priorSum_validate, max_eq_right h, div_self]
    exact ne_of_gt (lt_of_lt_of_le (by norm_num) h)
  refine ⟨hval, ?_⟩
  intro f fb lr now g ev hpre hsum
  have hupd : SAF.update_from_feedback f fb lr now
      = SAF.record_interaction (SAF.validate g) ev now := by
    simp [SAF.update_from_feedback, SAF.updateTry, hpre]
  have hrec : priorSum (SAF.record_interaction (SAF.validate g) ev now)
      = priorSum (SAF.validate g) := rfl
  rw [hupd, hrec, hval g hsum]

/-- C3, witness: normalization holds on the default fingerprint for a
plain `validate` and for a well-formed `accept` update. -/
theorem C3_witness :
    priorSum (SAF.validate defaultSAF) = 1 ∧
    priorSum (SAF.update_from_feedback defaultSAF fbC3good (1/20) 0) = 1 :=
  ⟨C3_amended.1 defaultSAF (by decide),
   C3_amended.2 defaultSAF fbC3good (1/20) 0 gC3 evC3 (by decide)
     (by decide)⟩

/-- C10: `update_from_feedback` never lets an exception reach its caller —
the exception-transparent embedding always returns `ok` with exactly the
state the caller observes, for every fingerprint, feedback mapping,
learning rate and clock value. -/
theorem C10_update_never_raises (f : SAF) (feedback : Dict PyVal) (lr now : ℚ) :
    SAF.update_from_feedbackExc f feedback lr now
      = Except.ok (SAF.update_from_feedback f feedback lr now) := by
  unfold SAF.update_from_feedbackExc SAF.update_from_feedback
  cases SAF.updateTry f feedback lr now with
  | ok s => rfl
  | error p => obtain ⟨s, e⟩ := p; rfl

/-- C4, counterexample: feedback with a valid modality adjustment but a
non-numeric familiarity value leaves a PARTIAL update visible — the state
differs from the original (the sensitivity moved) yet the history was never
appended (the complete update always appends the event), refuting
atomicity as claimed. -/
theorem C4_counterexample :
    SAF.update_from_feedback defaultSAF fbC4bad (1/20) 0 ≠ defaultSAF ∧
    (SAF.update_from_feedback defaultSAF fbC4bad (1/20) 0).history = defaultSAF.history := by
  constructor
  · decide
  · decide

/-- C4 (amended): the update is atomic on feedback whose float-coerced
fields all parse — the complete composite (adjustments, re-normalization,
history append) is applied; when the magnitude itself is malformed the
state is left unchanged.  (When a familiarity field is malformed after a
valid magnitude, the steps already executed remain visible — the
counterexample.) -/
theorem C4_amended :
    (∀ (f : SAF) (feedback : Dict PyVal) (lr now : ℚ) (g : SAF) (ev : Dict PyVal),
        SAF.updatePreNormalize f feedback lr = Except.ok (g, ev) →
        SAF.update_from_feedback f feedback lr now
          = SAF.record_interaction (SAF.validate g) ev now)
    ∧ (∀ (f : SAF) (feedback : Dict PyVal) (lr now : ℚ) (e : String),
        PyVal.toFloat (dgetD feedback "magnitude" (PyVal.num 1)) = Except.error e →
        SAF.update_from_feedback f feedback lr now = f)
    ∧ (∀ (f : SAF) (feedback : Dict PyVal) (lr : ℚ),
        (∃ q, PyVal.toFloat (dgetD feedback "magnitude" (PyVal.num 1)) = Except.ok q) →
        (dmem feedback "local_metaphor_familiarity" = true →
          ∃ q, PyVal.toFloat (dgetD feedback "local_metaphor_familiarity" PyVal.none)
            = Except.ok q) →
        (dmem feedback "global_metaphor_familiarity" = true →
          ∃ q, PyVal.toFloat (dgetD feedback "global_metaphor_familiarity" PyVal.none)
            = Except.ok q) →
        ∃ g ev, SAF.updatePreNormalize f feedback lr = Except.ok (g, ev)) := by
  refine ⟨?_, ?_, ?_⟩
  · intro f fb lr now g ev h
    simp [SAF.update_from_feedback, SAF.updateTry, h]
  · intro f fb lr now e h
    simp [SAF.update_from_feedback, SAF.updateTry, SAF.updatePreNormalize, h]
  · intro f fb lr hm hloc hglob
    obtain ⟨qm, hqm⟩ := hm
    unfold SAF.updatePreNormalize
    rw [hqm]
    dsimp only
    by_cases hL : dmem fb "local_metaphor_familiarity" = true
    · obtain ⟨ql, hql⟩ := hloc hL
      by_cases hG : dmem fb "global_metaphor_familiarity" = true
      · obtain ⟨qg, hqg⟩ := hglob hG
        simp only [hL, hG, hql, hqg, Except.map, if_true]
        exact ⟨_, _, rfl⟩
      · simp only [hL, hG, hql, Except.map, if_true, if_false, Bool.false_eq_true]
        exact ⟨_, _, rfl⟩
    · by_cases hG : dmem fb "global_metaphor_familiarity" = true
      · obtain ⟨qg, hqg⟩ := hglob hG
        simp only [hL, hG, hqg, Except.map, if_true, if_false, Bool.false_eq_true]
        exact ⟨_, _, rfl⟩
      · simp only [hL, hG, Except.map, if_false, Bool.false_eq_true]
        exact ⟨_, _, rfl⟩

/-- C4, witness: a fully well-formed update applies the complete composite,
and a malformed magnitude leaves the fingerprint untouched. -/
theorem C4_witness :
    SAF.update_from_feedback defaultSAF fbC4good (1/20) 0
      = SAF.record_interaction (SAF.validate gC4) evC4 0 ∧
    SAF.update_from_feedback defaultSAF
      [("action", PyVal.str "accept"), ("magnitude", PyVal.str "oops")] (1/20) 0
      = defaultSAF :=
  ⟨C4_amended.1 defaultSAF fbC4good (1/20) 0 gC4 evC4 (by decide),
   C4_amended.2.1 defaultSAF _ (1/20) 0 "ValueError" (by decide)⟩

theorem clampModalities_eq_self {d : Dict ℚ}
    (h : ∀ m ∈ baseModalities, ∃ v, dlookup d m = Option.some v ∧ 0 ≤ v ∧ v ≤ 1) :
    clampModalities d = d := by
  obtain ⟨v1, hl1, h01, h11⟩ := h "vision" (by decide)
  obtain ⟨v2, hl2, h02, h12⟩ := h "hearing" (by decide)
  obtain ⟨v3, hl3, h03, h13⟩ := h "smell" (by decide)
  obtain ⟨v4, hl4, h04, h14⟩ := h "taste" (by decide)
  obtain ⟨v5, hl5, h05, h15⟩ := h "touch" (by decide)
  have step : ∀ (m : String) (v : ℚ), dlookup d m = Option.some v → 0 ≤ v → v ≤ 1 →
      dset d m (clamp01 (dgetD d m 0)) = d := by
    intro m v hl h0 h1
    rw [dgetD, hl, Option.getD_some, clamp01, min_eq_right h1, max_eq_right h0]
    exact dset_of_lookup_eq hl
  simp only [clampModalities, baseModalities, List.foldl_cons, List.foldl_nil]
  rw [step _ _ hl1 h01 h11, step _ _ hl2 h02 h12, step _ _ hl3 h03 h13,
      step _ _ hl4 h04 h14, step _ _ hl5 h05 h15]

theorem validate_eq_self {f : SAF}
    (hmod : ∀ m ∈ baseModalities, ∃ v, dlookup f.data m = Option.some v ∧ 0 ≤ v ∧ v ≤ 1)
    {rm rg rf : ℚ}
    (h1 : dlookup f.data "rewrite_minimal" = Option.some rm)
    (h2 : dlookup f.data "rewrite_gentle" = Option.some rg)
    (h3 : dlookup f.data "rewrite_full" = Option.some rf)
    (hsum : rm + rg + rf = 1) :
    SAF.validate f = f := by
  unfold SAF.validate
  dsimp only
  rw [clampModalities_eq_self hmod]
  rw [dgetD, dgetD, dgetD, h1, h2, h3]
  simp only [Option.getD_some]
  rw [hsum]
  rw [show max (1/1000000 : ℚ) 1 = 1 by norm_num]
  rw [div_one, div_one, div_one]
  rw [dset_of_lookup_eq h1, dset_of_lookup_eq h2, dset_of_lookup_eq h3]

/-- C7, counterexample: on a fingerprint whose three priors are each 0.5,
the round trip `from_dict(to_dict(f))` re-normalizes them to 1/3 through
`validate`, so the reproduced `data` is NOT identical to the original. -/
theorem C7_counterexample :
    (SAF.from_dict (SAF.to_dict fC7)).data ≠ fC7.data := by
  decide

/-- C7 (amended): `from_dict ∘ to_dict` reproduces `data`, `preferences`,
`history` and `version` identically exactly when `data` is already a fixed
point of `validate`: the five modality sensitivities are present with
values in `[0,1]` and the three strategy priors are present and sum to 1.
(Otherwise the `validate` call inside `from_dict` rewrites `data` — see
the counterexample.) -/
theorem C7_amended (f : SAF) {rm rg rf : ℚ}
    (hmod : ∀ m ∈ baseModalities, ∃ v, dlookup f.data m = Option.some v ∧ 0 ≤ v ∧ v ≤ 1)
    (h1 : dlookup f.data "rewrite_minimal" = Option.some rm)
    (h2 : dlookup f.data "rewrite_gentle" = Option.some rg)
    (h3 : dlookup f.data "rewrite_full" = Option.some rf)
    (hsum : rm + rg + rf = 1) :
    SAF.from_dict (SAF.to_dict f) = f := by
  show SAF.validate { data := f.data, preferences := f.preferences,
                      history := f.history, version := f.version } = f
  exact validate_eq_self hmod h1 h2 h3 hsum

/-- C7, witness: the default fingerprint round-trips identically. -/
theorem C7_witness : SAF.from_dict (SAF.to_dict defaultSAF) = defaultSAF :=
  @C7_amended defaultSAF (33/100) (33/100) (34/100)
    (by
      intro m hm
      fin_cases hm <;> exact ⟨0, by decide, le_refl 0, by norm_num⟩)
    (by decide) (by decide) (by decide) (by norm_num)

theorem exceptBind_ok {ε α β : Type} {x : Except ε α} {f : α → Except ε β} {b : β}
    (h : x >>= f = Except.ok b) : ∃ a, x = Except.ok a ∧ f a = Except.ok b := by
  cases x with
  | ok a => exact ⟨a, rfl, h⟩
  | error e => simp [Bind.bind, Except.bind] at h

theorem nonOv_of_not_overlaps {sp a : DSpan} (h : ¬ overlapsB sp a = true) : NonOv a sp := by
  simp only [overlapsB, Bool.and_eq_true, decide_eq_true_eq, not_and, not_lt] at h
  unfold NonOv
  omega

theorem resolve_step_pairwise (res : List DSpan) (sp : DSpan)
    (h : res.Pairwise NonOv) : (_resolve_step res sp).Pairwise NonOv := by
  unfold _resolve_step
  by_cases hany : res.any (fun ex => overlapsB sp ex && !decide (ex.confidence < sp.confidence)) = true
  · simp only [hany, if_true]
    exact List.Pairwise.filter _ h
  · simp only [hany, if_false]
    apply List.pairwise_append.mpr
    refine ⟨List.Pairwise.filter _ h, List.pairwise_singleton _ _, ?_⟩
    intro a ha b hb
    have hb' : b = sp := by simpa using hb
    subst hb'
    obtain ⟨hamem, hapred⟩ := List.mem_filter.mp ha
    simp only [List.any_eq_true, not_exists, not_and] at hany
    have hres := hany a hamem
    simp only [Bool.and_eq_true, Bool.not_eq_true, decide_eq_false_iff_not, not_and, not_lt]
      at hres
    cases hov : overlapsB b a with
    | false => exact nonOv_of_not_overlaps (by simp [hov])
    | true =>
      exfalso
      have h1 : a.confidence < b.confidence := by simpa using hres hov
      rw [Bool.not_eq_true'] at hapred
      rw [hov, Bool.true_and, decide_eq_false_iff_not] at hapred
      exact hapred h1

theorem resolve_foldl_pairwise (l : List DSpan) :
    ∀ acc : List DSpan, acc.Pairwise NonOv → (l.foldl _resolve_step acc).Pairwise NonOv := by
  induction l with
  | nil => intro acc hacc; exact hacc
  | cons sp rest ih =>
      intro acc hacc
      exact ih _ (resolve_step_pairwise acc sp hacc)

theorem resolve_overlaps_pairwise (spans : List DSpan) :
    (_resolve_overlaps spans).Pairwise NonOv := by
  unfold _resolve_overlaps
  by_cases hs : spans.isEmpty
  · simp [hs]
  · simp only [hs, if_false]
    exact resolve_foldl_pairwise _ [] List.Pairwise.nil

/-- C5: for every input text, language, culture and window size, whenever
`detect_sensory_spans` returns a span list, that list is pairwise
non-overlapping: for any two distinct returned spans one ends at or before
the other starts. -/
theorem C5_resolved_spans_nonoverlapping (text language culture : String) (window : ℕ)
    (out : List DSpan)
    (h : detect_sensory_spans text language culture window = Except.ok out) :
    out.Pairwise NonOv := by
  unfold detect_sensory_spans at h
  by_cases hl : (dlookup LANGUAGE_VARIANTS language).isNone = true
  · simp [hl] at h
  · simp only [hl, if_false] at h
    obtain ⟨km, hkm, h⟩ := exceptBind_ok h
    obtain ⟨idio, hid, h⟩ := exceptBind_ok h
    obtain ⟨cross, hcr, h⟩ := exceptBind_ok h
    obtain ⟨toks, htk, h⟩ := exceptBind_ok h
    have hout : out = _resolve_overlaps (idio ++ toks) := by
      have := h
      simp only [pure, Except.pure] at this
      exact (Except.ok.inj this).symm
    rw [hout]
    exact resolve_overlaps_pairwise _

set_option maxRecDepth 40000 in
/-- C5, witness: the detector run on `"dim loud"` returns exactly the two
expected spans, and they do not overlap. -/
theorem C5_witness :
    detect_sensory_spans "dim loud" "en" "global" 3 = Except.ok spansC5 ∧
    spansC5.Pairwise NonOv := by
  have h : detect_sensory_spans "dim loud" "en" "global" 3 = Except.ok spansC5 := by decide
  exact ⟨h, C5_resolved_spans_nonoverlapping "dim loud" "en" "global" 3 spansC5 h⟩

/-- C6, counterexample: with a caller-supplied cultural factor of 2, the
code computes 3/8 for the edge of `gC6` (the factor divides once inside
`compute_transition_penalty` and again inside `STGEdge.weight`), while the
claimed formula `base_cost × modalityPenalty / culturalFactor` gives 3/4 —
the claim fails whenever the cultural factor differs from 1. -/
theorem C6_counterexample :
    dijkstraRelaxWeight gC6 "a" eC6 (Option.some pC6) = Except.ok (3/8) ∧
    claimedEdgeWeight gC6 "a" eC6 (Option.some pC6) = Except.ok (3/4) ∧
    (3/8 : ℚ) ≠ 3/4 := by
  refine ⟨by decide, by decide, by norm_num⟩

/-- C6 (amended): for every edge relaxed during traversal, the effective
weight equals `base_cost × P / max(1e-6, cf)` floored at 0, where
`P = max(0, modalityPenalty / max(1e-6, cf))`, `modalityPenalty` is 1.0
(shared modality) or 1.5 times the profile's per-target-modality factor,
and `cf` is the profile's cultural factor — i.e. the cultural factor
divides the weight TWICE, not once as claimed. -/
theorem C6_amended (g : STG) (nid : String) (e : STGEdge) (up : Option UserProfile)
    (s t : STGNode) (hs : dlookup g.nodes nid = Option.some s)
    (ht : dlookup g.nodes e.target = Option.some t) :
    dijkstraRelaxWeight g nid e up =
      Except.ok (max 0 (e.base_cost *
        max 0 ((if s.modality = t.modality then 1 else 3/2) * profileModalityFactor up t.modality
                 / max (1/1000000) (profileCultureFactor up))
        / max (1/1000000) (profileCultureFactor up))) := by
  unfold dijkstraRelaxWeight compute_transition_penalty STGEdge.weight
    profileModalityFactor profileCultureFactor
  rw [hs, ht]
  cases up with
  | none =>
      by_cases hm : s.modality = t.modality <;>
        simp only [hm, ne_eq, not_true_eq_false, not_false_eq_true, if_true, if_false,
          ite_true, ite_false, Except.map, one_mul, mul_one] <;>
        norm_num
  | some u =>
      by_cases hm : s.modality = t.modality <;>
        simp only [hm, ne_eq, not_true_eq_false, not_false_eq_true, if_true, if_false,
          ite_true, ite_false, Except.map, one_mul, mul_one] <;>
        norm_num

/-- C6, witness: the amended double-division formula evaluated on the
concrete graph, edge and profile. -/
theorem C6_witness :
    dijkstraRelaxWeight gC6 "a" eC6 (Option.some pC6) =
      Except.ok (max 0 ((1 : ℚ) *
        max 0 ((if ("vision" : String) = "hearing" then 1 else 3/2) *
                 profileModalityFactor (Option.some pC6) "hearing"
                 / max (1/1000000) (profileCultureFactor (Option.some pC6)))
        / max (1/1000000) (profileCultureFactor (Option.some pC6)))) :=
  C6_amended gC6 "a" eC6 (Option.some pC6)
    { id := "a", modality := "vision", text := "bright" }
    { id := "b", modality := "hearing", text := "ring" }
    (by decide) (by decide)

theorem splitOnSubNE_ne_nil (p : Char) (ps : List Char) :
    ∀ (fuel : ℕ) (text : List Char), splitOnSubNE p ps fuel text ≠ [] := by
  intro fuel
  induction fuel with
  | zero => intro text; simp [splitOnSubNE]
  | succ n ih =>
      intro text
      cases text with
      | nil => simp [splitOnSubNE]
      | cons c cs =>
          unfold splitOnSubNE
          by_cases hp : isPrefixB (p :: ps) (c :: cs) = true
          · simp [hp]
          · simp only [hp, if_false]
            cases hsp : splitOnSubNE p ps n cs with
            | nil => exact absurd hsp (ih cs)
            | cons l ls => simp

theorem repJoin_cons_cons (sep : List Char) (c : Char) (l : List Char) (ls : List (List Char)) :
    repJoin sep ((c :: l) :: ls) = c :: repJoin sep (l :: ls) := by
  cases ls with
  | nil => rfl
  | cons y ys => simp [repJoin, List.cons_append]

theorem repJoin_nil_cons (sep : List Char) {L : List (List Char)} (h : L ≠ []) :
    repJoin sep ([] :: L) = sep ++ repJoin sep L := by
  cases L with
  | nil => exact absurd rfl h
  | cons y ys => simp [repJoin]

theorem prefix_decomp {p : Char} {ps cs : List Char} {c : Char}
    (hp : isPrefixB (p :: ps) (c :: cs) = true) :
    (p :: ps) ++ (c :: cs).drop (ps.length + 1) = c :: cs := by
  have hpre : (p :: ps) <+: (c :: cs) := by
    rw [isPrefixB, List.isPrefixOf_iff_prefix] at hp
    exact hp
  obtain ⟨t, ht⟩ := hpre
  conv_lhs => rw [← ht]
  conv_rhs => rw [← ht]
  congr 1
  rw [show ps.length + 1 = (p :: ps).length by simp]
  exact List.drop_left _ _

theorem splitOnSubNE_reconstruct (p : Char) (ps : List Char) :
    ∀ (fuel : ℕ) (text : List Char), text.length ≤ fuel →
      repJoin (p :: ps) (splitOnSubNE p ps fuel text) = text := by
  intro fuel
  induction fuel with
  | zero => intro text _; simp [splitOnSubNE, repJoin]
  | succ n ih =>
      intro text hlen
      cases text with
      | nil => simp [splitOnSubNE, repJoin]
      | cons c cs =>
          unfold splitOnSubNE
          by_cases hp : isPrefixB (p :: ps) (c :: cs) = true
          · rw [if_pos hp]
            have hrest : ((c :: cs).drop (ps.length + 1)).length ≤ n := by
              simp only [List.length_drop, List.length_cons]
              simp only [List.length_cons] at hlen
              omega
            rw [repJoin_nil_cons _ (splitOnSubNE_ne_nil p ps n _), ih _ hrest]
            exact prefix_decomp hp
          · obtain ⟨l, ls, hsp⟩ : ∃ l ls, splitOnSubNE p ps n cs = l :: ls := by
              cases h' : splitOnSubNE p ps n cs with
              | nil => exact absurd h' (splitOnSubNE_ne_nil p ps n cs)
              | cons l ls => exact ⟨l, ls, rfl⟩
            rw [if_neg hp, hsp]
            dsimp only
            have ihcs : repJoin (p :: ps) (l :: ls) = cs := by
              rw [← hsp]
              exact ih cs (by simp only [List.length_cons] at hlen; omega)
            rw [repJoin_cons_cons, ihcs]

theorem subAllNE_eq_repJoin (p : Char) (ps rep : List Char) :
    ∀ (fuel : ℕ) (text : List Char), text.length ≤ fuel →
      subAllNE p ps rep fuel text = repJoin rep (splitOnSubNE p ps fuel text) := by
  intro fuel
  induction fuel with
  | zero => intro text _; simp [subAllNE, splitOnSubNE, repJoin]
  | succ n ih =>
      intro text hlen
      cases text with
      | nil => simp [subAllNE, splitOnSubNE, repJoin]
      | cons c cs =>
          unfold subAllNE splitOnSubNE
          by_cases hp : isPrefixB (p :: ps) (c :: cs) = true
          · rw [if_pos hp, if_pos hp]
            have hrest : ((c :: cs).drop (ps.length + 1)).length ≤ n := by
              simp only [List.length_drop, List.length_cons]
              simp only [List.length_cons] at hlen
              omega
            rw [repJoin_nil_cons _ (splitOnSubNE_ne_nil p ps n _), ih _ hrest]
          · obtain ⟨l, ls, hsp⟩ : ∃ l ls, splitOnSubNE p ps n cs = l :: ls := by
              cases h' : splitOnSubNE p ps n cs with
              | nil => exact absurd h' (splitOnSubNE_ne_nil p ps n cs)
              | cons l ls => exact ⟨l, ls, rfl⟩
            rw [if_neg hp, if_neg hp, hsp]
            dsimp only
            have ihcs : subAllNE p ps rep n cs = repJoin rep (l :: ls) := by
              rw [← hsp]
              exact ih cs (by simp only [List.length_cons] at hlen; omega)
            rw [repJoin_cons_cons, ← ihcs]

theorem extract_replacements_congr {cands cands' : List GenCandidate}
    (h : cands.map (fun c => (c.span.token, c.alternatives))
      = cands'.map (fun c => (c.span.token, c.alternatives))) :
    extract_replacements cands = extract_replacements cands' := by
  induction cands generalizing cands' with
  | nil =>
      cases cands' with
      | nil => rfl
      | cons _ _ => simp at h
  | cons c cs ih =>
      cases cands' with
      | nil => simp at h
      | cons c' cs' =>
          simp only [List.map_cons, List.cons.injEq, Prod.mk.injEq] at h
          obtain ⟨⟨ht, ha⟩, hrest⟩ := h
          have ih' := ih (by simpa using hrest)
          unfold extract_replacements at ih' ⊢
          simp only [List.filterMap_cons]
          rw [ht, ha, ih']

/-- C9: the substitution the rewrite engine performs under the gentle and
full strategies replaces the span token as a literal substring at EVERY
leftmost, non-overlapping occurrence anywhere in the text — the text
decomposes at each occurrence (`repJoin old (splitOnSub old text) = text`)
and `_apply_replacements` rejoins the same pieces with the replacement —
and `generate_rewrites` reads a candidate only through its token and
alternatives, never through the detected span's character offsets. -/
theorem C9_replacement_global :
    (∀ (old rep text : List Char), old ≠ [] →
        repJoin old (splitOnSub old text) = text ∧
        subAll old rep text = repJoin rep (splitOnSub old text))
    ∧ (∀ (seqRatio : String → String → ℚ) (text : String) (fp : SAF) (ov : Option String)
        (val : Bool) (cache : RewriteCache) (cands cands' : List GenCandidate),
        cands.map (fun c => (c.span.token, c.alternatives))
          = cands'.map (fun c => (c.span.token, c.alternatives)) →
        generate_rewrites seqRatio text cands fp ov val cache
          = generate_rewrites seqRatio text cands' fp ov val cache) := by
  constructor
  · intro old rep text hne
    cases old with
    | nil => exact absurd rfl hne
    | cons p ps =>
        unfold splitOnSub subAll
        exact ⟨splitOnSubNE_reconstruct p ps text.length text (le_refl _),
               subAllNE_eq_repJoin p ps rep text.length text (le_refl _)⟩
  · intro seqRatio text fp ov val cache cands cands' h
    unfold generate_rewrites
    rw [extract_replacements_congr h]

/-- C9, witness: every occurrence of `"an"` in `"banana"` is replaced, and
moving a candidate's span offsets (and modality) leaves the engine output
unchanged. -/
theorem C9_witness :
    (repJoin "an".data (splitOnSub "an".data "banana".data) = "banana".data ∧
      subAll "an".data "xy".data "banana".data = repJoin "xy".data (splitOnSub "an".data "banana".data)) ∧
    generate_rewrites seqRatio0 "a dim day" candsC9a defaultSAF (Option.some "gentle") true []
      = generate_rewrites seqRatio0 "a dim day" candsC9b defaultSAF (Option.some "gentle") true [] :=
  ⟨C9_replacement_global.1 "an".data "xy".data "banana".data (by decide),
   C9_replacement_global.2 seqRatio0 "a dim day" defaultSAF (Option.some "gentle") true []
     candsC9a candsC9b (by decide)⟩

theorem validate_rewrites_ne_nil (sim : String → String → ℚ) (original : String) (rw : RWDict)
    (th : ℚ) (pe : Bool) : (validate_rewrites sim original rw th pe).alternatives ≠ [] := by
  unfold validate_rewrites
  dsimp only
  by_cases h : (rw.alternatives.filter (fun r =>
      (!pe || preserve_named_entities original r) && decide (th ≤ sim original r))).isEmpty = true
  · simp [h]
  · rw [if_neg h]
    rw [Bool.not_eq_true, List.isEmpty_eq_false_iff_exists_mem] at h
    obtain ⟨x, hx⟩ := h
    exact List.ne_nil_of_mem hx

theorem validate_rewrites_all_fail (sim : String → String → ℚ) (original : String) (rw : RWDict)
    (th : ℚ)
    (h : ∀ r ∈ rw.alternatives, ¬(preserve_named_entities original r = true ∧ th ≤ sim original r)) :
    (validate_rewrites sim original rw th true).alternatives = [original] := by
  unfold validate_rewrites
  dsimp only
  have hfilter : rw.alternatives.filter (fun r =>
      (!true || preserve_named_entities original r) && decide (th ≤ sim original r)) = [] := by
    rw [List.filter_eq_nil_iff]
    intro r hr
    simp only [Bool.not_true, Bool.false_or, Bool.and_eq_true, decide_eq_true_eq, not_and]
    exact fun hp hs => h r hr ⟨hp, hs⟩
  rw [hfilter]
  rfl

/-- C1: for every stage behavior and every input, the pipeline result's
`alternatives` list is non-empty; and whenever the generation stage
succeeds but every generated alternative fails pipeline validation
(named-entity preservation and the 0.6 similarity threshold), the original
text is the sole member of that list. -/
theorem C1_pipeline_alternatives_nonempty {σ δ φ : Type} (st : PipeStages σ δ φ)
    (seqRatio : String → String → ℚ) (text language culture : String) (fp : φ) :
    (run_rewrite_pipeline st seqRatio text language culture fp).alternatives ≠ [] ∧
    (∀ rw : RWDict, pipelineGenerated st text language culture fp = Except.ok rw →
      (∀ r ∈ rw.alternatives, ¬ pipelineValidPass seqRatio text r) →
      (run_rewrite_pipeline st seqRatio text language culture fp).alternatives = [text]) := by
  cases hgen : pipelineGenerated st text language culture fp with
  | error e =>
      have hbody : pipelineBody st seqRatio text language culture fp = Except.error e := by
        unfold pipelineBody
        rw [hgen]
        rfl
      have hrun : run_rewrite_pipeline st seqRatio text language culture fp
          = { original := text, alternatives := [text], strategy := "minimal" } := by
        unfold run_rewrite_pipeline
        rw [hbody]
      refine ⟨by rw [hrun]; simp, ?_⟩
      intro rw hrw
      exact absurd hrw (by simp)
  | ok rw0 =>
      have hbody : pipelineBody st seqRatio text language culture fp
          = Except.ok { original := text
                        alternatives := (validate_rewrites (_default_semantic_similarity seqRatio)
                          text rw0 (3/5) true).alternatives
                        strategy := (validate_rewrites (_default_semantic_similarity seqRatio)
                          text rw0 (3/5) true).strategy } := by
        unfold pipelineBody
        rw [hgen]
        rfl
      have hrun : run_rewrite_pipeline st seqRatio text language culture fp
          = { original := text
              alternatives := (validate_rewrites (_default_semantic_similarity seqRatio) text
                rw0 (3/5) true).alternatives
              strategy := (validate_rewrites (_default_semantic_similarity seqRatio) text
                rw0 (3/5) true).strategy } := by
        unfold run_rewrite_pipeline
        rw [hbody]
      constructor
      · rw [hrun]
        exact validate_rewrites_ne_nil _ _ _ _ _
      · intro rw hrw hfail
        have heq : rw0 = rw := Except.ok.inj hrw
        subst heq
        rw [hrun]
        exact validate_rewrites_all_fail _ _ _ _ (fun r hr hc => hfail r hr hc)

/-- C1, witness: with stages whose generator emits only an alternative that
drops the proper noun `Bob`, validation rejects everything and the original
text survives alone. -/
theorem C1_witness :
    (run_rewrite_pipeline stagesC1 seqRatio0 "Bob x" "en" "global" ()).alternatives
      = ["Bob x"] :=
  (C1_pipeline_alternatives_nonempty stagesC1 seqRatio0 "Bob x" "en" "global" ()).2
    { alternatives := ["zzz"], strategy := "full" } (by decide)
    (by
      intro r hr
      have hr' : r = "zzz" := by simpa using hr
      subst hr'
      intro hc
      have h1 := hc.1
      revert h1
      decide)

/-- C2: whenever any internal stage raises (the try-block value is an
error), `run_rewrite_pipeline` returns exactly
`{original: text, alternatives: [text], strategy: "minimal"}` — the
exception never reaches the caller. -/
theorem C2_pipeline_catches_exceptions {σ δ φ : Type} (st : PipeStages σ δ φ)
    (seqRatio : String → String → ℚ) (text language culture : String) (fp : φ) (e : String)
    (h : pipelineBody st seqRatio text language culture fp = Except.error e) :
    run_rewrite_pipeline st seqRatio text language culture fp
      = { original := text, alternatives := [text], strategy := "minimal" } := by
  unfold run_rewrite_pipeline
  rw [h]

/-- C2, witness: a detector that raises drives the orchestrator into the
exact degraded fallback. -/
theorem C2_witness :
    run_rewrite_pipeline stagesC2 seqRatio0 "hello" "en" "global" ()
      = { original := "hello", alternatives := ["hello"], strategy := "minimal" } :=
  C2_pipeline_catches_exceptions stagesC2 seqRatio0 "hello" "en" "global" () "boom" (by decide)

theorem pyInsert_perm {α : Type} (le : α → α → Bool) (x : α) (l : List α) :
    (pyInsert le x l).Perm (x :: l) := by
  induction l with
  | nil => exact List.Perm.refl _
  | cons y ys ih =>
      unfold pyInsert
      by_cases h : le y x = true
      · rw [if_pos h]
        exact ((ih.cons y).trans (List.Perm.swap x y ys))
      · rw [if_neg h]

theorem pySortBy_foldl_perm {α : Type} (le : α → α → Bool) (l : List α) :
    ∀ acc : List α, (l.foldl (fun acc x => pyInsert le x acc) acc).Perm (acc ++ l) := by
  induction l with
  | nil => intro acc; simp
  | cons x xs ih =>
      intro acc
      have h1 := ih (pyInsert le x acc)
      have h2 : (pyInsert le x acc ++ xs).Perm (acc ++ x :: xs) := by
        have hp : (pyInsert le x acc ++ xs).Perm ((x :: acc) ++ xs) :=
          (pyInsert_perm le x acc).append_right xs
        have hm : (x :: (acc ++ xs)).Perm (acc ++ x :: xs) := List.perm_middle.symm
        exact hp.trans hm
      exact (List.foldl_cons _ _ ▸ h1).trans h2

theorem pySortBy_perm {α : Type} (le : α → α → Bool) (l : List α) :
    (pySortBy le l).Perm l := by
  have := pySortBy_foldl_perm le l []
  simpa [pySortBy] using this

theorem cultural_filter_perm (cands : List String) (culture : String) :
    (_cultural_filter cands culture).Perm cands := by
  unfold _cultural_filter
  have h1 := (pySortBy_perm
    (fun a b => decide (b.1 < a.1) || (decide (b.1 = a.1) && strLe b.2 a.2))
    (cands.map (fun c =>
      ((1 : ℚ) + (if containsSub (lowerStr c).data (lowerStr culture).data then 1/5 else 0)
        + (if wordCount c ≤ 3 then 1/20 else 0), c))))
  have h2 := h1.map (fun sc : ℚ × String => sc.2)
  simpa [List.map_map, Function.comp_def] using h2

theorem rerank_metaphors_perm (cands : List String) (f : SAF) :
    (rerank_metaphors cands f).Perm cands := by
  unfold rerank_metaphors
  have h1 := (pySortBy_perm
    (fun a b => decide (b.1 < a.1) || (decide (b.1 = a.1) && strLe b.2 a.2))
    (cands.map (fun m => (dgetD f.data "local_metaphor_familiarity" (1/2), m))))
  have h2 := h1.map (fun sm : ℚ × String => sm.2)
  simpa [List.map_map, Function.comp_def] using h2

theorem retrieve_with_scores_nil (q culture : String) (k : ℕ) :
    retrieve_with_scores [] q culture k = [] := by
  unfold retrieve_with_scores
  simp [pySortBy]

theorem flatMap_retrieve_nil (l : List String) (culture : String) (k : ℕ) :
    l.flatMap (fun q => (retrieve_with_scores [] q culture k).map (fun ts => (ts.2, ts.1)))
      = [] := by
  induction l with
  | nil => rfl
  | cons a t ih => simp [List.flatMap_cons, retrieve_with_scores_nil, ih]

theorem perm_pair {α : Type} {l : List α} {a b : α} (h : l.Perm [a, b]) :
    l = [a, b] ∨ l = [b, a] := by
  have hlen : l.length = 2 := h.length_eq
  match l, hlen with
  | [x, y], _ =>
      have hx : x ∈ [a, b] := h.mem_iff.mp (by simp)
      rcases (by simpa using hx : x = a ∨ x = b) with rfl | rfl
      · have h' : [y].Perm [b] := h.cons_inv
        have : y = b := by simpa using h'.mem_iff.mp (by simp)
        subst this
        exact Or.inl rfl
      · have h1 : ([x, a] : List α).Perm [a, x] := List.Perm.swap a x []
        have h2 : ([x, y] : List α).Perm [x, a] := h.trans h1.symm
        have h3 : [y].Perm [a] := h2.cons_inv
        have : y = a := by simpa using h3.mem_iff.mp (by simp)
        subst this
        exact Or.inr rfl

theorem take_unique_pair {x y : String} (hxy : x ≠ y) {k : ℕ} (h2 : 2 ≤ k) :
    take_unique k [] [x, y] = [x, y] := by
  unfold take_unique
  have hcx : (([] : List String).contains x) = false := rfl
  rw [hcx]
  simp only [Bool.false_eq_true, if_false, List.nil_append]
  have hk1 : ¬ k ≤ ([x] : List String).length := by simp; omega
  rw [if_neg hk1]
  unfold take_unique
  have hcy : (([x] : List String).contains y) = false := by
    simp only [List.contains_cons, List.contains_nil, Bool.or_false, beq_eq_false_iff_ne, ne_eq]
    exact fun he => hxy he.symm
  rw [hcy]
  simp only [Bool.false_eq_true, if_false]
  by_cases hk2 : k ≤ ([x] ++ [y] : List String).length
  · rw [if_pos hk2]
    rfl
  · rw [if_neg hk2]
    rfl

theorem take_unique_eq_of_perm_pair {x y : String} (hxy : x ≠ y) {k : ℕ} (h2 : 2 ≤ k)
    {l : List String} (hl : l.Perm [x, y]) : take_unique k [] l = l := by
  rcases perm_pair hl with rfl | rfl
  · exact take_unique_pair hxy h2
  · exact take_unique_pair (Ne.symm hxy) h2

theorem templates_ne (tok : String) :
    tok ++ " like a distant memory" ≠ tok ++ " that fills the room" := by
  intro he
  have hd := congrArg String.data he
  rw [String.data_append, String.data_append] at hd
  have h2 := List.append_cancel_left hd
  exact absurd h2 (by decide)

/-- C8, counterexample: on a non-empty index whose sole document shares no
token with any query expansion, every retrieved candidate scores exactly 0,
yet `retrieve_cultural_metaphors` returns that zero-scored document and
synthesizes NO template fallback — the fallback fires only when the
retrieval list is empty, not when no candidate scores above zero. -/
theorem C8_counterexample :
    retrieve_cultural_metaphors idxC8 spanC8 "global" 8 true true = ["zzz"] ∧
    ¬ "glow like a distant memory" ∈ retrieve_cultural_metaphors idxC8 spanC8 "global" 8 true true ∧
    ¬ "glow that fills the room" ∈ retrieve_cultural_metaphors idxC8 spanC8 "global" 8 true true := by
  refine ⟨by decide, by decide, by decide⟩

/-- C8 (amended): the two template fallbacks are synthesized exactly when
retrieval returns no candidates at all — e.g. for every span and culture
over an EMPTY document index the result is precisely the two templates (in
some order), hence non-empty.  When candidates are retrieved, even all with
zero scores, no fallback is synthesized (see the counterexample). -/
theorem C8_amended (span : RagSpan) (culture : String) (topK : ℕ) (h2 : 2 ≤ topK) :
    (retrieve_cultural_metaphors [] span culture topK true true).Perm
      [span.token ++ " like a distant memory", span.token ++ " that fills the room"] ∧
    retrieve_cultural_metaphors [] span culture topK true true ≠ [] := by
  have hne : span.token ++ " like a distant memory" ≠ span.token ++ " that fills the room" :=
    templates_ne span.token
  have hbase : ((pySortBy
      (fun (a b : ℚ × String) => decide (b.1 < a.1) || (decide (b.1 = a.1) && strLe b.2 a.2))
      [((1 : ℚ)/5, span.token ++ " like a distant memory"),
       ((1 : ℚ)/5, span.token ++ " that fills the room")]).map (fun sc => sc.2)).Perm
      [span.token ++ " like a distant memory", span.token ++ " that fills the room"] := by
    have hs := (pySortBy_perm
      (fun (a b : ℚ × String) => decide (b.1 < a.1) || (decide (b.1 = a.1) && strLe b.2 a.2))
      [((1 : ℚ)/5, span.token ++ " like a distant memory"),
       ((1 : ℚ)/5, span.token ++ " that fills the room")]).map (fun sc : ℚ × String => sc.2)
    simpa using hs
  unfold retrieve_cultural_metaphors
  simp only [flatMap_retrieve_nil, List.isEmpty_nil, Bool.and_self, if_true]
  cases hfp : span.fingerprint with
  | none =>
      simp only []
      have hperm := (cultural_filter_perm _ culture).trans hbase
      rw [take_unique_eq_of_perm_pair hne h2 hperm]
      refine ⟨hperm, ?_⟩
      intro hnil
      rw [hnil] at hperm
      have := hperm.length_eq
      simp at this
  | some f =>
      simp only []
      have hfl := (cultural_filter_perm _ culture).trans hbase
      have hlen := hfl.length_eq
      simp only [List.length_cons, List.length_nil] at hlen
      have htk : (_cultural_filter ((pySortBy
          (fun (a b : ℚ × String) => decide (b.1 < a.1) || (decide (b.1 = a.1) && strLe b.2 a.2))
          [((1 : ℚ)/5, span.token ++ " like a distant memory"),
           ((1 : ℚ)/5, span.token ++ " that fills the room")]).map (fun sc => sc.2))
          culture).take (topK * 2)
          = _cultural_filter ((pySortBy
          (fun (a b : ℚ × String) => decide (b.1 < a.1) || (decide (b.1 = a.1) && strLe b.2 a.2))
          [((1 : ℚ)/5, span.token ++ " like a distant memory"),
           ((1 : ℚ)/5, span.token ++ " that fills the room")]).map (fun sc => sc.2)) culture :=
        List.take_of_length_le (by omega)
      rw [htk]
      have hperm := (rerank_metaphors_perm _ f).trans hfl
      rw [take_unique_eq_of_perm_pair hne h2 hperm]
      refine ⟨hperm, ?_⟩
      intro hnil
      rw [hnil] at hperm
      have := hperm.length_eq
      simp at this

/-- C8, witness: over the empty index the result for the `glow` span is a
permutation of the two templates and non-empty. -/
theorem C8_witness :
    (retrieve_cultural_metaphors [] spanC8 "global" 8 true true).Perm
      [spanC8.token ++ " like a distant memory", spanC8.token ++ " that fills the room"] ∧
    retrieve_cultural_metaphors [] spanC8 "global" 8 true true ≠ [] :=
  C8_amended spanC8 "global" 8 (by norm_num)
